import Mathlib

/-!
# Verification of the `bevy-ui-string-parser` parsing core

Shallow embedding of the four parser families of the repository
(`src/parser/angle.rs`, `src/parser/val.rs`, `src/parser/rect.rs`,
`src/parser/color.rs`) and proofs about them.

Modelling conventions:

* Rust `&str` slices are modelled as `List Char`; the result type
  `IResult<&str, T>` of every grammar is modelled as
  `Option (T × List Char)` — `some (v, rest)` for `Ok((rest, v))` and
  `none` for `Err(..)`.  nom's `Err::Error`, `Err::Failure` and
  `Err::Incomplete` all collapse into `none`: every claim observes only
  success vs. failure (and `Result::ok()` in the string wrappers maps all
  three to `None`), so the distinction is not observable here.
* `f32` values are modelled as exact rationals (`ℚ`): every numeric input
  appearing in the claims is small and exactly representable, and the
  relational claims compare results of parsing the *same* literal, so
  exact arithmetic is faithful for all statements proved below.
  Rational arithmetic is performed through `mkRat`-based helpers
  (`qadd`, `qmul`, `qneg`) so that every definition evaluates by kernel
  reduction.
* nom's `multispace0` matches exactly `' '`, `'\t'`, `'\r'`, `'\n'`,
  which coincides with Lean's `Char.isWhitespace`.
* Rust snake_case function names ending in `_parser` are rendered in
  camelCase (`angle_parser` becomes `angleParser`, and so on); all other
  names keep the source spelling.
-/

set_option maxRecDepth 100000

/-- The characters consumed by nom's `multispace0` (and trimmed by
`str::trim` on the inputs considered here): space, tab, CR, LF. -/
def isSpaceChar (c : Char) : Bool :=
  c.isWhitespace

/-- Model of `multispace0`: drop the longest whitespace prefix.  (It never fails,
so it is modelled as a total function on the input.) -/
def pms0 (s : List Char) : List Char :=
  s.dropWhile isSpaceChar

/-- Model of `str::trim`: drop whitespace at both ends. -/
def strTrim (s : List Char) : List Char :=
  ((s.dropWhile isSpaceChar).reverse.dropWhile isSpaceChar).reverse

/-- Model of `nom::bytes::complete::tag t`: succeed iff `t` is a prefix of the
input, consuming it. -/
def ptag (t s : List Char) : Option (List Char × List Char) :=
  if t.isPrefixOf s then some (t, s.drop t.length) else none

/-- Model of `nom::character::char c`: consume exactly the character `c`. -/
def pcharP (c : Char) (s : List Char) : Option (Char × List Char) :=
  match s with
  | c' :: r => if c' = c then some (c, r) else none
  | [] => none

/-- Split off the longest prefix of decimal digits (the digit scanner
underlying the numeric-literal scanner). -/
def scanDigits : List Char → List Char × List Char
  | [] => ([], [])
  | c :: cs =>
    if c.isDigit then
      let p := scanDigits cs
      (c :: p.1, p.2)
    else ([], c :: cs)

/-- Exact addition on the rational model of `f32`. -/
def qadd (a b : ℚ) : ℚ :=
  mkRat (a.num * b.den + b.num * a.den) (a.den * b.den)

/-- Exact multiplication on the rational model of `f32`. -/
def qmul (a b : ℚ) : ℚ :=
  mkRat (a.num * b.num) (a.den * b.den)

/-- Exact negation on the rational model of `f32`. -/
def qneg (a : ℚ) : ℚ :=
  mkRat (-a.num) a.den

/-- Numeric value of a decimal digit character. -/
def digitVal (c : Char) : ℕ :=
  c.toNat - 48

/-- Value of a list of decimal digits read as a natural number. -/
def digitsVal (ds : List Char) : ℕ :=
  ds.foldl (fun a c => a * 10 + digitVal c) 0

/-- Value of a list of decimal digits read as an integer literal part. -/
def intVal (ds : List Char) : ℚ :=
  mkRat (digitsVal ds) 1

/-- Value of a list of decimal digits read as a fractional part. -/
def fracVal (ds : List Char) : ℚ :=
  mkRat (digitsVal ds) (10 ^ ds.length)

/-- Modelled from the spec (§4.1): the unsigned part of the numeric
literal scanner (the repository delegates it to `nom`'s `float`, whose
source is not part of the repository).  Consumes the longest prefix of
one of the forms `\d+`, `\d+\.\d*`, `\.\d+`; fails when no digit is
present; performs no whitespace trimming. -/
def scanUFloat (s : List Char) : Option (ℚ × List Char) :=
  match scanDigits s with
  | ([], rest) =>
    match rest with
    | '.' :: rest2 =>
      match scanDigits rest2 with
      | ([], _) => none
      | (fp, rest3) => some (fracVal fp, rest3)
    | _ => none
  | (ip, rest) =>
    match rest with
    | '.' :: rest2 =>
      match scanDigits rest2 with
      | (fp, rest3) => some (qadd (intVal ip) (fracVal fp), rest3)
    | _ => some (intVal ip, rest)

/-- Modelled from the spec (§4.1): the signed numeric literal scanner
(`float` in the Rust source): an optional leading `-` followed by an
unsigned literal.  A bare `-` is not a literal. -/
def scanFloat (s : List Char) : Option (ℚ × List Char) :=
  match s with
  | '-' :: r => (scanUFloat r).map (fun p => (qneg p.1, p.2))
  | _ => scanUFloat s

/-- Model of `tuple((float, tag t))` — a numeric literal immediately followed by a
fixed suffix. -/
def pfloatTag (t : List Char) (s : List Char) : Option (ℚ × List Char) :=
  match scanFloat s with
  | some (v, r) =>
    match ptag t r with
    | some (_, r2) => some (v, r2)
    | none => none
  | none => none

/-- Model of `f32::to_radians`, modelled as exact scaling of the rational model
of the float by the (fixed) conversion constant π/180 (the claims only
compare two applications of this same constant, so its exact value is
immaterial; 314159265358979 / (10^14 · 180) is used). -/
def toRadians (x : ℚ) : ℚ :=
  qmul x (mkRat 314159265358979 18000000000000000)

/-- Model of `angle_parser` (src/parser/angle.rs:15-21): trim, then try
`float "deg"` (converted to radians), `float "rad"`, bare `float`, in
that order. -/
def angleParser (s : List Char) : Option (ℚ × List Char) :=
  match pfloatTag ['d', 'e', 'g'] (strTrim s) with
  | some (v, r) => some (toRadians v, r)
  | none =>
    match pfloatTag ['r', 'a', 'd'] (strTrim s) with
    | some (v, r) => some (v, r)
    | none => scanFloat (strTrim s)

/-- Model of `angle_string_parser` (src/parser/angle.rs:24-26): keep the value of
a successful parse (whatever remainder it leaves), map failure to
`none`. -/
def angleStringParser (s : List Char) : Option ℚ :=
  (angleParser s).map (fun p => p.1)

/-- Model of `bevy::ui::Val`, the dimension value type (src/parser/val.rs). -/
inductive Val : Type
  | Auto : Val
  | Px : ℚ → Val
  | Percent : ℚ → Val
  | Vw : ℚ → Val
  | Vh : ℚ → Val
  | VMin : ℚ → Val
  | VMax : ℚ → Val
  deriving DecidableEq, Repr

/-- One `map(tuple((float, tag sfx)), mk)` alternative of `val_parser`. -/
def pvalSuffix (t : List Char) (mk : ℚ → Val) (s : List Char) :
    Option (Val × List Char) :=
  match pfloatTag t s with
  | some (v, r) => some (mk v, r)
  | none => none

/-- The `alt(...)` body of `val_parser` (src/parser/val.rs:27-35):
`auto`, then the six suffixed literal forms, in source order. -/
def valAlt (s : List Char) : Option (Val × List Char) :=
  match ptag ['a', 'u', 't', 'o'] s with
  | some (_, r) => some (Val.Auto, r)
  | none =>
    match pvalSuffix ['p', 'x'] Val.Px s with
    | some p => some p
    | none =>
      match pvalSuffix ['%'] Val.Percent s with
      | some p => some p
      | none =>
        match pvalSuffix ['v', 'w'] Val.Vw s with
        | some p => some p
        | none =>
          match pvalSuffix ['v', 'h'] Val.Vh s with
          | some p => some p
          | none =>
            match pvalSuffix ['v', 'm', 'i', 'n'] Val.VMin s with
            | some p => some p
            | none => pvalSuffix ['v', 'm', 'a', 'x'] Val.VMax s

/-- Model of `val_parser` (src/parser/val.rs:24-38): the alternation delimited by
`multispace0` on both sides. -/
def valParser (s : List Char) : Option (Val × List Char) :=
  match valAlt (pms0 s) with
  | some (v, r) => some (v, pms0 r)
  | none => none

/-- Model of `val_string_parser` (src/parser/val.rs:41-43). -/
def valStringParser (s : List Char) : Option Val :=
  (valParser s).map (fun p => p.1)

/-- Model of `bevy::ui::UiRect` (src/parser/rect.rs): four `Val` sides. -/
structure UiRect : Type where
  left : Val
  right : Val
  top : Val
  bottom : Val
  deriving DecidableEq, Repr

/-- Model of `UiRect::new(left, right, top, bottom)` — bevy's constructor
argument order. -/
def UiRect.new (left right top bottom : Val) : UiRect :=
  ⟨left, right, top, bottom⟩

/-- Model of `UiRect::all(v)`. -/
def UiRect.all (v : Val) : UiRect :=
  ⟨v, v, v, v⟩

/-- Model of `preceded(multispace, val_parser)` — one element of a rect tuple. -/
def preVal (s : List Char) : Option (Val × List Char) :=
  valParser (pms0 s)

/-- Model of `four_rect_parser` (src/parser/rect.rs:17-27): four
whitespace-preceded dimension values, mapped through
`|(top, right, bottom, left)| UiRect::new(left, right, top, bottom)`.
nom's `complete` only converts `Incomplete` into an error, which the
embedding already identifies with failure. -/
def fourRectParser (s : List Char) : Option (UiRect × List Char) :=
  match preVal s with
  | some (top, s1) =>
    match preVal s1 with
    | some (right, s2) =>
      match preVal s2 with
      | some (bottom, s3) =>
        match preVal s3 with
        | some (left, s4) => some (UiRect.new left right top bottom, s4)
        | none => none
      | none => none
    | none => none
  | none => none

/-- Model of `three_rect_parser` (src/parser/rect.rs:34-43):
`|(top, left_right, bottom)| UiRect::new(left_right, left_right, top, bottom)`. -/
def threeRectParser (s : List Char) : Option (UiRect × List Char) :=
  match preVal s with
  | some (top, s1) =>
    match preVal s1 with
    | some (left_right, s2) =>
      match preVal s2 with
      | some (bottom, s3) =>
        some (UiRect.new left_right left_right top bottom, s3)
      | none => none
    | none => none
  | none => none

/-- Model of `two_rect_parser` (src/parser/rect.rs:50-58):
`|(top_bottom, left_right)| UiRect::new(left_right, left_right, top_bottom, top_bottom)`. -/
def twoRectParser (s : List Char) : Option (UiRect × List Char) :=
  match preVal s with
  | some (top_bottom, s1) =>
    match preVal s1 with
    | some (left_right, s2) =>
      some (UiRect.new left_right left_right top_bottom top_bottom, s2)
    | none => none
  | none => none

/-- Model of `one_rect_parser` (src/parser/rect.rs:65-67): a single value, all
four sides equal. -/
def oneRectParser (s : List Char) : Option (UiRect × List Char) :=
  match preVal s with
  | some (v, s1) => some (UiRect.all v, s1)
  | none => none

/-- Model of `rect_parser` (src/parser/rect.rs:78-80): longest arity first. -/
def rectParser (s : List Char) : Option (UiRect × List Char) :=
  match fourRectParser s with
  | some p => some p
  | none =>
    match threeRectParser s with
    | some p => some p
    | none =>
      match twoRectParser s with
      | some p => some p
      | none => oneRectParser s

/-- Model of `rect_string_parser` (src/parser/rect.rs:83-85). -/
def rectStringParser (s : List Char) : Option UiRect :=
  (rectParser s).map (fun p => p.1)

/-- Model of `bevy::render::color::Color` restricted to the two variants the
parsers construct (`Rgba` from rgb/hex/named forms, `Hsla` from hsl
forms); channels are the rational model of `f32`. -/
inductive Color : Type
  | Rgba : ℚ → ℚ → ℚ → ℚ → Color
  | Hsla : ℚ → ℚ → ℚ → ℚ → Color
  deriving DecidableEq, Repr

/-- Model of `Color::rgba(r, g, b, a)`. -/
def Color.rgba (r g b a : ℚ) : Color :=
  Color.Rgba r g b a

/-- Model of `Color::rgb(r, g, b)`: alpha defaults to fully opaque. -/
def Color.rgb (r g b : ℚ) : Color :=
  Color.rgba r g b 1

/-- Model of `Color::hsla(h, s, l, a)`. -/
def Color.hsla (h s l a : ℚ) : Color :=
  Color.Hsla h s l a

/-- Model of `Color::hsl(h, s, l)`: alpha defaults to fully opaque. -/
def Color.hsl (h s l : ℚ) : Color :=
  Color.hsla h s l 1

/-- Model of `Color::rgba_u8`: bytes scaled into 0.0–1.0 channels. -/
def Color.rgba_u8 (r g b a : ℕ) : Color :=
  Color.rgba (mkRat r 255) (mkRat g 255) (mkRat b 255) (mkRat a 255)

/-- Model of `Color::rgb_u8`: opaque byte color. -/
def Color.rgb_u8 (r g b : ℕ) : Color :=
  Color.rgba_u8 r g b 255

/-- Model of `char::is_ascii_hexdigit` (src/parser/color.rs:260-262). -/
def is_hex_digit (c : Char) : Bool :=
  c.isDigit || ('a' <= c && c <= 'f') || ('A' <= c && c <= 'F')

/-- Numeric value of a hexadecimal digit character. -/
def hexVal (c : Char) : ℕ :=
  if c.isDigit then c.toNat - 48
  else if 'a' <= c && c <= 'f' then c.toNat - 87
  else c.toNat - 55

/-- Model of `from_hex` (src/parser/color.rs:250-252): a two-digit hex byte. -/
def from_hex (a b : Char) : ℕ :=
  16 * hexVal a + hexVal b

/-- Model of `from_half_hex` (src/parser/color.rs:255-257): one hex digit
duplicated into a byte (`F` -> `FF` -> 255). -/
def from_half_hex (a : Char) : ℕ :=
  17 * hexVal a

/-- Model of `hex_primary` (src/parser/color.rs:265-267):
`take_while_m_n(2, 2, is_hex_digit)` mapped through `from_hex`. -/
def hex_primary (s : List Char) : Option (ℕ × List Char) :=
  match s with
  | a :: b :: r =>
    if is_hex_digit a && is_hex_digit b then some (from_hex a b, r)
    else none
  | _ => none

/-- Model of `hex_half` (src/parser/color.rs:270-272):
`take_while_m_n(1, 1, is_hex_digit)` mapped through `from_half_hex`. -/
def hex_half (s : List Char) : Option (ℕ × List Char) :=
  match s with
  | a :: r => if is_hex_digit a then some (from_half_hex a, r) else none
  | _ => none

/-- Model of `color_hex6_parser` (src/parser/color.rs:277-281). -/
def colorHex6Parser (s : List Char) : Option (Color × List Char) :=
  match ptag ['#'] s with
  | some (_, r0) =>
    match hex_primary r0 with
    | some (r, r1) =>
      match hex_primary r1 with
      | some (g, r2) =>
        match hex_primary r2 with
        | some (b, r3) => some (Color.rgb_u8 r g b, r3)
        | none => none
      | none => none
    | none => none
  | none => none

/-- Model of `color_hex8_parser` (src/parser/color.rs:286-290). -/
def colorHex8Parser (s : List Char) : Option (Color × List Char) :=
  match ptag ['#'] s with
  | some (_, r0) =>
    match hex_primary r0 with
    | some (r, r1) =>
      match hex_primary r1 with
      | some (g, r2) =>
        match hex_primary r2 with
        | some (b, r3) =>
          match hex_primary r3 with
          | some (a, r4) => some (Color.rgba_u8 r g b a, r4)
          | none => none
        | none => none
      | none => none
    | none => none
  | none => none

/-- Model of `color_hex3_parser` (src/parser/color.rs:295-299). -/
def colorHex3Parser (s : List Char) : Option (Color × List Char) :=
  match ptag ['#'] s with
  | some (_, r0) =>
    match hex_half r0 with
    | some (r, r1) =>
      match hex_half r1 with
      | some (g, r2) =>
        match hex_half r2 with
        | some (b, r3) => some (Color.rgb_u8 r g b, r3)
        | none => none
      | none => none
    | none => none
  | none => none

/-- Model of `preceded(tuple((multispace, char(\',\'), multispace)), float)` — one
comma-separated continuation element of a float list. -/
def pCommaFloat (s : List Char) : Option (ℚ × List Char) :=
  match pcharP ',' (pms0 s) with
  | some (_, r) => scanFloat (pms0 r)
  | none => none

/-- Model of `three_float_parser` (src/parser/color.rs:175-182). -/
def threeFloatParser (s : List Char) : Option ((ℚ × ℚ × ℚ) × List Char) :=
  match scanFloat (pms0 s) with
  | some (a, r1) =>
    match pCommaFloat r1 with
    | some (b, r2) =>
      match pCommaFloat r2 with
      | some (c, r3) => some ((a, b, c), r3)
      | none => none
    | none => none
  | none => none

/-- Model of `four_float_parser` (src/parser/color.rs:185-193). -/
def fourFloatParser (s : List Char) :
    Option ((ℚ × ℚ × ℚ × ℚ) × List Char) :=
  match scanFloat (pms0 s) with
  | some (a, r1) =>
    match pCommaFloat r1 with
    | some (b, r2) =>
      match pCommaFloat r2 with
      | some (c, r3) =>
        match pCommaFloat r3 with
        | some (d, r4) => some ((a, b, c, d), r4)
        | none => none
      | none => none
    | none => none
  | none => none

/-- Model of `color_fn_parser` (src/parser/color.rs:199-215): whitespace, the
function name, `(`, whitespace, the inner float list, whitespace, `)`,
whitespace. -/
def colorFnParser {O : Type} (name : List Char)
    (inner : List Char → Option (O × List Char)) (s : List Char) :
    Option (O × List Char) :=
  match ptag name (pms0 s) with
  | some (_, r1) =>
    match ptag ['('] r1 with
    | some (_, r2) =>
      match inner (pms0 r2) with
      | some (o, r3) =>
        match ptag [')'] (pms0 r3) with
        | some (_, r4) => some (o, pms0 r4)
        | none => none
      | none => none
    | none => none
  | none => none

/-- Model of `color_rgb_parser` (src/parser/color.rs:218-223). -/
def colorRgbParser (s : List Char) : Option (Color × List Char) :=
  match colorFnParser ['r', 'g', 'b'] threeFloatParser s with
  | some ((r, g, b), rest) => some (Color.rgb r g b, rest)
  | none => none

/-- Model of `color_rgba_parser` (src/parser/color.rs:226-231). -/
def colorRgbaParser (s : List Char) : Option (Color × List Char) :=
  match colorFnParser ['r', 'g', 'b', 'a'] fourFloatParser s with
  | some ((r, g, b, a), rest) => some (Color.rgba r g b a, rest)
  | none => none

/-- Model of `color_hsl_parser` (src/parser/color.rs:234-239). -/
def colorHslParser (s : List Char) : Option (Color × List Char) :=
  match colorFnParser ['h', 's', 'l'] threeFloatParser s with
  | some ((h, sa, l), rest) => some (Color.hsl h sa l, rest)
  | none => none

/-- Model of `color_hsla_parser` (src/parser/color.rs:242-247). -/
def colorHslaParser (s : List Char) : Option (Color × List Char) :=
  match colorFnParser ['h', 's', 'l', 'a'] fourFloatParser s with
  | some ((h, sa, l, a), rest) => some (Color.hsla h sa l a, rest)
  | none => none

/-- The raw `(name, hex body)` pairs of `CSS_COLOR_TABLE`
(src/parser/color.rs:15-172), in source order. -/
def cssColorRawStr : List (String × String) := [
    ("aliceblue", "F0F8FF"),
    ("antiquewhite", "FAEBD7"),
    ("aqua", "00FFFF"),
    ("aquamarine", "7FFFD4"),
    ("azure", "F0FFFF"),
    ("beige", "F5F5DC"),
    ("bisque", "FFE4C4"),
    ("black", "000000"),
    ("blanchedalmond", "FFEBCD"),
    ("blue", "0000FF"),
    ("blueviolet", "8A2BE2"),
    ("brown", "A52A2A"),
    ("burlywood", "DEB887"),
    ("cadetblue", "5F9EA0"),
    ("chartreuse", "7FFF00"),
    ("chocolate", "D2691E"),
    ("coral", "FF7F50"),
    ("cornflowerblue", "6495ED"),
    ("cornsilk", "FFF8DC"),
    ("crimson", "DC143C"),
    ("cyan", "00FFFF"),
    ("darkblue", "00008B"),
    ("darkcyan", "008B8B"),
    ("darkgoldenrod", "B8860B"),
    ("darkgray", "A9A9A9"),
    ("darkgreen", "006400"),
    ("darkgrey", "A9A9A9"),
    ("darkkhaki", "BDB76B"),
    ("darkmagenta", "8B008B"),
    ("darkolivegreen", "556B2F"),
    ("darkorange", "FF8C00"),
    ("darkorchid", "9932CC"),
    ("darkred", "8B0000"),
    ("darksalmon", "E9967A"),
    ("darkseagreen", "8FBC8F"),
    ("darkslateblue", "483D8B"),
    ("darkslategray", "2F4F4F"),
    ("darkslategrey", "2F4F4F"),
    ("darkturquoise", "00CED1"),
    ("darkviolet", "9400D3"),
    ("deeppink", "FF1493"),
    ("deepskyblue", "00BFFF"),
    ("dimgray", "696969"),
    ("dimgrey", "696969"),
    ("dodgerblue", "1E90FF"),
    ("firebrick", "B22222"),
    ("floralwhite", "FFFAF0"),
    ("forestgreen", "228B22"),
    ("fuchsia", "FF00FF"),
    ("gainsboro", "DCDCDC"),
    ("ghostwhite", "F8F8FF"),
    ("gold", "FFD700"),
    ("goldenrod", "DAA520"),
    ("gray", "808080"),
    ("green", "008000"),
    ("greenyellow", "ADFF2F"),
    ("grey", "808080"),
    ("honeydew", "F0FFF0"),
    ("hotpink", "FF69B4"),
    ("indianred", "CD5C5C"),
    ("indigo", "4B0082"),
    ("ivory", "FFFFF0"),
    ("khaki", "F0E68C"),
    ("lavender", "E6E6FA"),
    ("lavenderblush", "FFF0F5"),
    ("lawngreen", "7CFC00"),
    ("lemonchiffon", "FFFACD"),
    ("lightblue", "ADD8E6"),
    ("lightcoral", "F08080"),
    ("lightcyan", "E0FFFF"),
    ("lightgoldenrodyellow", "FAFAD2"),
    ("lightgray", "D3D3D3"),
    ("lightgreen", "90EE90"),
    ("lightgrey", "D3D3D3"),
    ("lightpink", "FFB6C1"),
    ("lightsalmon", "FFA07A"),
    ("lightseagreen", "20B2AA"),
    ("lightskyblue", "87CEFA"),
    ("lightslategray", "778899"),
    ("lightslategrey", "778899"),
    ("lightsteelblue", "B0C4DE"),
    ("lightyellow", "FFFFE0"),
    ("lime", "00FF00"),
    ("limegreen", "32CD32"),
    ("linen", "FAF0E6"),
    ("magenta", "FF00FF"),
    ("maroon", "800000"),
    ("mediumaquamarine", "66CDAA"),
    ("mediumblue", "0000CD"),
    ("mediumorchid", "BA55D3"),
    ("mediumpurple", "9370DB"),
    ("mediumseagreen", "3CB371"),
    ("mediumslateblue", "7B68EE"),
    ("mediumspringgreen", "00FA9A"),
    ("mediumturquoise", "48D1CC"),
    ("mediumvioletred", "C71585"),
    ("midnightblue", "191970"),
    ("mintcream", "F5FFFA"),
    ("mistyrose", "FFE4E1"),
    ("moccasin", "FFE4B5"),
    ("navajowhite", "FFDEAD"),
    ("navy", "000080"),
    ("oldlace", "FDF5E6"),
    ("olive", "808000"),
    ("olivedrab", "6B8E23"),
    ("orange", "FFA500"),
    ("orangered", "FF4500"),
    ("orchid", "DA70D6"),
    ("palegoldenrod", "EEE8AA"),
    ("palegreen", "98FB98"),
    ("paleturquoise", "AFEEEE"),
    ("palevioletred", "DB7093"),
    ("papayawhip", "FFEFD5"),
    ("peachpuff", "FFDAB9"),
    ("peru", "CD853F"),
    ("pink", "FFC0CB"),
    ("plum", "DDA0DD"),
    ("powderblue", "B0E0E6"),
    ("purple", "800080"),
    ("rebeccapurple", "663399"),
    ("red", "FF0000"),
    ("rosybrown", "BC8F8F"),
    ("royalblue", "4169E1"),
    ("saddlebrown", "8B4513"),
    ("salmon", "FA8072"),
    ("sandybrown", "F4A460"),
    ("seagreen", "2E8B57"),
    ("seashell", "FFF5EE"),
    ("sienna", "A0522D"),
    ("silver", "C0C0C0"),
    ("skyblue", "87CEEB"),
    ("slateblue", "6A5ACD"),
    ("slategray", "708090"),
    ("slategrey", "708090"),
    ("snow", "FFFAFA"),
    ("springgreen", "00FF7F"),
    ("steelblue", "4682B4"),
    ("tan", "D2B48C"),
    ("teal", "008080"),
    ("thistle", "D8BFD8"),
    ("tomato", "FF6347"),
    ("turquoise", "40E0D0"),
    ("violet", "EE82EE"),
    ("wheat", "F5DEB3"),
    ("white", "FFFFFF"),
    ("whitesmoke", "F5F5F5"),
    ("yellow", "FFFF00"),
    ("yellowgreen", "9ACD32")
]

/-- The raw table entries as character lists. -/
def cssColorRaw : List (List Char × List Char) :=
  cssColorRawStr.map (fun e => (e.1.toList, e.2.toList))

/-- Modelled from the spec: bevy's `Color::hex` constructor (external to
the repository), as used by the named-color table, whose entries are all
6-digit bodies; §4.4: the 6-digit form reads three 2-digit byte pairs
with alpha defaulted opaque, anything else found in a table entry would
be rejected (making `expect` panic). Only the 6-digit case can be
exercised by the table. -/
def Color.hex (s : List Char) : Option Color :=
  match s with
  | [r1, r2, g1, g2, b1, b2] =>
    if is_hex_digit r1 && is_hex_digit r2 && is_hex_digit g1 &&
        is_hex_digit g2 && is_hex_digit b1 && is_hex_digit b2 then
      some (Color.rgb_u8 (from_hex r1 r2) (from_hex g1 g2)
        (from_hex b1 b2))
    else none
  | _ => none

/-- Model of `CSS_COLOR_TABLE`: each entry decoded through `Color::hex`
(entries whose hex body fails to decode would panic in the source; the
model simply drops them, and the table-validity theorem shows none is
dropped). -/
def cssColorTable : List (List Char × Color) :=
  cssColorRaw.filterMap (fun e => (Color.hex e.2).map (fun c => (e.1, c)))

/-- Model of `HashMap::get` on the table, modelled as association-list lookup
(all keys are distinct). -/
def tableGet : List (List Char × Color) → List Char → Option Color
  | [], _ => none
  | e :: rest, k => if e.1 = k then some e.2 else tableGet rest k

/-- Model of `color_css_names_parser` (src/parser/color.rs:302-311): look up the
trimmed input verbatim; on a hit the whole input counts as consumed. -/
def colorCssNamesParser (s : List Char) : Option (Color × List Char) :=
  match tableGet cssColorTable (strTrim s) with
  | some c => some (c, [])
  | none => none

/-- The `alt(...)` body of `color_parser` (src/parser/color.rs:328-337),
in source order. -/
def colorAlt (s : List Char) : Option (Color × List Char) :=
  match colorRgbParser s with
  | some p => some p
  | none =>
    match colorRgbaParser s with
    | some p => some p
    | none =>
      match colorHslParser s with
      | some p => some p
      | none =>
        match colorHslaParser s with
        | some p => some p
        | none =>
          match colorHex8Parser s with
          | some p => some p
          | none =>
            match colorHex6Parser s with
            | some p => some p
            | none =>
              match colorHex3Parser s with
              | some p => some p
              | none => colorCssNamesParser s

/-- Model of `color_parser` (src/parser/color.rs:325-340): the alternation
delimited by `multispace0` on both sides. -/
def colorParser (s : List Char) : Option (Color × List Char) :=
  match colorAlt (pms0 s) with
  | some (c, r) => some (c, pms0 r)
  | none => none

/-- Model of `color_string_parser` (src/parser/color.rs:343-345). -/
def colorStringParser (s : List Char) : Option Color :=
  (colorParser s).map (fun p => p.1)

/-- The next character (if any) cannot extend a digit run. -/
def headNotDigit : List Char → Bool
  | [] => true
  | c :: _ => !c.isDigit

/-- The next character (if any) cannot extend a numeric literal: it is
neither a digit nor a decimal point. -/
def floatStop : List Char → Bool
  | [] => true
  | c :: _ => !c.isDigit && !(c == '.')

/-- Model of `t` is a single dimension token denoting `v`: either the keyword
`auto`, or a numeric literal (in the sense of the scanner) immediately
followed by one of the six unit suffixes. -/
def DimTok (t : List Char) (v : Val) : Prop :=
  (t = ['a', 'u', 't', 'o'] ∧ v = Val.Auto) ∨
  ∃ d x, scanFloat d = some (x, []) ∧
    ((t = d ++ ['p', 'x'] ∧ v = Val.Px x) ∨
     (t = d ++ ['%'] ∧ v = Val.Percent x) ∨
     (t = d ++ ['v', 'w'] ∧ v = Val.Vw x) ∨
     (t = d ++ ['v', 'h'] ∧ v = Val.Vh x) ∨
     (t = d ++ ['v', 'm', 'i', 'n'] ∧ v = Val.VMin x) ∨
     (t = d ++ ['v', 'm', 'a', 'x'] ∧ v = Val.VMax x))

/-- Predicate for ASCII letters, phrased on code points. -/
def letterNat (c : Char) : Prop :=
  (65 ≤ c.toNat ∧ c.toNat ≤ 90) ∨ (97 ≤ c.toNat ∧ c.toNat ≤ 122)

/-! Character-level lemmas -/

theorem isSpaceChar_cases {c : Char} (h : isSpaceChar c = true) :
    c = ' ' ∨ c = '\t' ∨ c = '\r' ∨ c = '\n' := by
  simpa [isSpaceChar, Char.isWhitespace, Bool.or_eq_true,
    decide_eq_true_eq, or_assoc] using h

theorem isSpaceChar_eq_false {c : Char} (h1 : c ≠ ' ') (h2 : c ≠ '\t')
    (h3 : c ≠ '\r') (h4 : c ≠ '\n') : isSpaceChar c = false := by
  cases h : isSpaceChar c
  · rfl
  · rcases isSpaceChar_cases h with rfl | rfl | rfl | rfl <;> simp at h1 h2 h3 h4

theorem not_ws_of_isDigit {c : Char} (h : c.isDigit = true) :
    isSpaceChar c = false := by
  apply isSpaceChar_eq_false <;> rintro rfl <;> exact absurd h (by decide)

theorem ne_of_isDigit {c c' : Char} (h : c.isDigit = true)
    (h' : c'.isDigit = false) : c ≠ c' := by
  rintro rfl; rw [h] at h'; exact absurd h' (by decide)

/-! Lemmas about `pms0`, `strTrim`, `ptag` -/

theorem pms0_nil : pms0 [] = [] := rfl

theorem pms0_cons_not_ws {c : Char} {r : List Char}
    (h : isSpaceChar c = false) : pms0 (c :: r) = c :: r := by
  simp [pms0, List.dropWhile, h]

theorem pms0_cons_ws {c : Char} {r : List Char}
    (h : isSpaceChar c = true) : pms0 (c :: r) = pms0 r := by
  simp [pms0, List.dropWhile, h]

theorem dropWhile_ws_eq_self {s : List Char}
    (h : ∀ c ∈ s, isSpaceChar c = false) :
    s.dropWhile isSpaceChar = s := by
  cases s with
  | nil => rfl
  | cons c r => simp [List.dropWhile, h c (by simp)]

theorem strTrim_eq_self {s : List Char}
    (h : ∀ c ∈ s, isSpaceChar c = false) : strTrim s = s := by
  unfold strTrim
  rw [dropWhile_ws_eq_self h, dropWhile_ws_eq_self, List.reverse_reverse]
  intro c hc
  exact h c (List.mem_reverse.mp hc)

theorem isPrefixOf_self_append (t u : List Char) :
    t.isPrefixOf (t ++ u) = true := by
  induction t with
  | nil => simp [List.isPrefixOf]
  | cons a t ih => simp [List.isPrefixOf, ih]

theorem ptag_self_append (t u : List Char) : ptag t (t ++ u) = some (t, u) := by
  simp [ptag, isPrefixOf_self_append, List.drop_left]

theorem ptag_nil {a : Char} {t : List Char} : ptag (a :: t) [] = none := by
  simp [ptag, List.isPrefixOf]

theorem ptag_cons_ne {a b : Char} {t s : List Char} (h : b ≠ a) :
    ptag (a :: t) (b :: s) = none := by
  simp only [ptag, List.isPrefixOf, Bool.and_eq_true, beq_iff_eq]
  rw [if_neg]
  rintro ⟨rfl, -⟩
  exact h rfl

/-! Digit-scanner lemmas -/

theorem scanDigits_append {a : List Char} (u : List Char)
    (ha : ∀ c ∈ a, c.isDigit = true) (hu : headNotDigit u = true) :
    scanDigits (a ++ u) = (a, u) := by
  induction a with
  | nil =>
    cases u with
    | nil => rfl
    | cons c r =>
      have hc : c.isDigit = false := by
        simpa [headNotDigit] using hu
      simp [scanDigits, hc]
  | cons c a ih =>
    have hc : c.isDigit = true := ha c (by simp)
    simp [scanDigits, hc, ih (fun x hx => ha x (by simp [hx]))]

theorem scanDigits_spec (l : List Char) :
    l = (scanDigits l).1 ++ (scanDigits l).2 ∧
    (∀ c ∈ (scanDigits l).1, c.isDigit = true) ∧
    headNotDigit (scanDigits l).2 = true := by
  induction l with
  | nil => exact ⟨rfl, fun c hc => by simp [scanDigits] at hc, rfl⟩
  | cons c r ih =>
    by_cases hc : c.isDigit = true
    · obtain ⟨h1, h2, h3⟩ := ih
      have hsd : scanDigits (c :: r) = (c :: (scanDigits r).1, (scanDigits r).2) := by
        simp [scanDigits, hc]
      refine ⟨?_, ?_, ?_⟩
      · rw [hsd]
        simpa using congrArg (List.cons c) h1
      · intro x hx
        rw [hsd] at hx
        rcases (by simpa using hx : x = c ∨ x ∈ (scanDigits r).1) with rfl | hx'
        · exact hc
        · exact h2 x hx'
      · rw [hsd]
        exact h3
    · have hc' : c.isDigit = false := by simpa using hc
      refine ⟨?_, ?_, ?_⟩ <;> simp [scanDigits, hc', headNotDigit]

theorem headNotDigit_of_floatStop {u : List Char} (hu : floatStop u = true) :
    headNotDigit u = true := by
  cases u with
  | nil => rfl
  | cons c r =>
    simp only [floatStop, Bool.and_eq_true] at hu
    simpa [headNotDigit] using hu.1

theorem scanUFloat_append {l : List Char} {v : ℚ}
    (h : scanUFloat l = some (v, [])) (u : List Char)
    (hu : floatStop u = true) : scanUFloat (l ++ u) = some (v, u) := by
  have hund : headNotDigit u = true := headNotDigit_of_floatStop hu
  obtain ⟨hsplit, hdig, hstop⟩ := scanDigits_spec l
  rcases hsd : scanDigits l with ⟨ip, rest⟩
  rw [hsd] at hsplit hdig hstop
  simp only at hsplit hdig hstop
  unfold scanUFloat at h
  rw [hsd] at h
  split at h
  case h_1 x snd heq =>
    injection heq with hip hrest
    split at h
    case h_1 _j rest2 =>
      split at h
      case h_1 => exact absurd h (by simp)
      case h_2 x2 fp rest3 hfpne heq2 =>
        simp only [Option.some.injEq, Prod.mk.injEq] at h
        obtain ⟨hv, hr3⟩ := h
        obtain ⟨hsplit2, hdig2, hstop2⟩ := scanDigits_spec rest2
        rw [heq2] at hsplit2 hdig2 hstop2
        simp only at hsplit2 hdig2 hstop2
        have hrest2 : rest2 = fp := by rw [hsplit2, hr3, List.append_nil]
        have hl : l = '.' :: fp := by
          rw [hsplit, hip, hrest, hrest2]
          rfl
        have hlu : l ++ u = '.' :: (fp ++ u) := by rw [hl]; rfl
        rw [hlu]
        have hsd2 : scanDigits ('.' :: (fp ++ u)) = ([], '.' :: (fp ++ u)) := by
          simp [scanDigits]
        cases fp with
        | nil => exact absurd rfl hfpne
        | cons f fp' =>
          have hs3 : scanDigits (f :: (fp' ++ u)) = (f :: fp', u) := by
            simpa using scanDigits_append u hdig2 hund
          unfold scanUFloat
          rw [hsd2]
          simp [hs3, hv]
    case h_2 hne =>
      exact absurd h (by simp)
  case h_2 x2 ip0 rest0 hipne heq =>
    injection heq with hip hrest
    rw [← hip] at hipne
    split at h
    case h_1 _j rest2 =>
      rcases heq2 : scanDigits rest2 with ⟨fp2, rest3⟩
      rw [heq2] at h
      simp only [Option.some.injEq, Prod.mk.injEq] at h
      obtain ⟨hv, hr3⟩ := h
      obtain ⟨hsplit2, hdig2, hstop2⟩ := scanDigits_spec rest2
      rw [heq2] at hsplit2 hdig2 hstop2
      simp only at hsplit2 hdig2 hstop2
      have hrest2 : rest2 = fp2 := by rw [hsplit2, hr3, List.append_nil]
      have hlu : l ++ u = ip ++ ('.' :: (fp2 ++ u)) := by
        rw [hsplit, hrest, hrest2]
        simp
      rw [hlu]
      have hsd2 : scanDigits (ip ++ ('.' :: (fp2 ++ u))) = (ip, '.' :: (fp2 ++ u)) :=
        scanDigits_append _ hdig rfl
      cases ip with
      | nil => exact absurd rfl hipne
      | cons i ip' =>
        have hs3 : scanDigits (fp2 ++ u) = (fp2, u) :=
          scanDigits_append u hdig2 hund
        unfold scanUFloat
        rw [hsd2]
        simp [hs3, hv, hip]
    case h_2 hne =>
      simp only [Option.some.injEq, Prod.mk.injEq] at h
      obtain ⟨hv, hrest0⟩ := h
      have hlu : l ++ u = ip ++ u := by rw [hsplit, hrest, hrest0, List.append_nil]
      rw [hlu]
      have hsd2 : scanDigits (ip ++ u) = (ip, u) :=
        scanDigits_append u hdig hund
      cases ip with
      | nil => exact absurd rfl hipne
      | cons i ip' =>
        unfold scanUFloat
        rw [hsd2]
        cases u with
        | nil => simp [hv, hip]
        | cons c u' =>
          have hcdot : ¬(c = '.') := by
            simp only [floatStop, Bool.and_eq_true, Bool.not_eq_true] at hu
            intro hc
            rw [hc] at hu
            exact absurd hu.2 (by decide)
          split
          case h_1 heq4 =>
            injection heq4 with hc4 hrest4
            simp at hc4
          case h_2 heq4 =>
            injection heq4 with hc4 hrest4
            rw [← hc4, ← hrest4]
            simp [hcdot, hv, hip]

theorem scanFloat_append {l : List Char} {v : ℚ}
    (h : scanFloat l = some (v, [])) (u : List Char)
    (hu : floatStop u = true) : scanFloat (l ++ u) = some (v, u) := by
  cases l with
  | nil => exact absurd h (by simp [scanFloat, scanUFloat, scanDigits])
  | cons c l' =>
    by_cases hc : c = '-'
    · subst hc
      have hredh : scanFloat ('-' :: l') =
          Option.map (fun p => (qneg p.1, p.2)) (scanUFloat l') := rfl
      have hredg : scanFloat (('-' :: l') ++ u) =
          Option.map (fun p => (qneg p.1, p.2)) (scanUFloat (l' ++ u)) := rfl
      rw [hredh] at h
      rw [hredg]
      rcases hsu : scanUFloat l' with _ | ⟨w, r⟩
      · rw [hsu] at h
        simp at h
      · rw [hsu] at h
        simp at h
        obtain ⟨hv, hr⟩ := h
        have hap := scanUFloat_append (by rw [hsu, hr]) u hu
        rw [hap]
        simp [hv]
    · unfold scanFloat at h ⊢
      split at h
      · rename_i heq
        injection heq with hc1 _
        exact absurd hc1 hc
      · split
        · rename_i heq
          injection heq with hc1 _
          exact absurd hc1 hc
        · exact scanUFloat_append h u hu

theorem scanUFloat_chars {l : List Char} {v : ℚ}
    (h : scanUFloat l = some (v, [])) :
    ∀ c ∈ l, c.isDigit = true ∨ c = '.' := by
  obtain ⟨hsplit, hdig, hstop⟩ := scanDigits_spec l
  rcases hsd : scanDigits l with ⟨ip, rest⟩
  rw [hsd] at hsplit hdig hstop
  simp only at hsplit hdig hstop
  unfold scanUFloat at h
  rw [hsd] at h
  split at h
  case h_1 x snd heq =>
    injection heq with hip hrest
    split at h
    case h_1 _j rest2 =>
      split at h
      case h_1 => exact absurd h (by simp)
      case h_2 x2 fp rest3 hfpne heq2 =>
        simp only [Option.some.injEq, Prod.mk.injEq] at h
        obtain ⟨hv, hr3⟩ := h
        obtain ⟨hsplit2, hdig2, hstop2⟩ := scanDigits_spec rest2
        rw [heq2] at hsplit2 hdig2
        simp only at hsplit2 hdig2
        intro c hc
        rw [hsplit, hip, hrest] at hc
        simp only [List.nil_append, List.mem_cons] at hc
        rcases hc with rfl | hc2
        · exact Or.inr rfl
        · rw [hsplit2, hr3, List.append_nil] at hc2
          exact Or.inl (hdig2 c hc2)
    case h_2 => exact absurd h (by simp)
  case h_2 x2 ip0 rest0 hipne heq =>
    injection heq with hip hrest
    split at h
    case h_1 _j rest2 =>
      rcases heq2 : scanDigits rest2 with ⟨fp2, rest3⟩
      rw [heq2] at h
      simp only [Option.some.injEq, Prod.mk.injEq] at h
      obtain ⟨hv, hr3⟩ := h
      obtain ⟨hsplit2, hdig2, hstop2⟩ := scanDigits_spec rest2
      rw [heq2] at hsplit2 hdig2
      simp only at hsplit2 hdig2
      intro c hc
      rw [hsplit, hrest] at hc
      rw [List.mem_append] at hc
      rcases hc with hcip | hc2
      · exact Or.inl (hdig c hcip)
      · simp only [List.mem_cons] at hc2
        rcases hc2 with rfl | hc3
        · exact Or.inr rfl
        · rw [hsplit2, hr3, List.append_nil] at hc3
          exact Or.inl (hdig2 c hc3)
    case h_2 =>
      simp only [Option.some.injEq, Prod.mk.injEq] at h
      obtain ⟨hv, hrest0⟩ := h
      intro c hc
      rw [hsplit, hrest, hrest0, List.append_nil] at hc
      exact Or.inl (hdig c hc)

theorem scanFloat_chars {l : List Char} {v : ℚ}
    (h : scanFloat l = some (v, [])) :
    ∀ c ∈ l, c.isDigit = true ∨ c = '.' ∨ c = '-' := by
  cases l with
  | nil => exact absurd h (by simp [scanFloat, scanUFloat, scanDigits])
  | cons c l' =>
    by_cases hc : c = '-'
    · subst hc
      have hredh : scanFloat ('-' :: l') =
          Option.map (fun p => (qneg p.1, p.2)) (scanUFloat l') := rfl
      rw [hredh] at h
      rcases hsu : scanUFloat l' with _ | ⟨w, r⟩
      · rw [hsu] at h
        simp at h
      · rw [hsu] at h
        simp at h
        obtain ⟨hv, hr⟩ := h
        intro x hx
        simp only [List.mem_cons] at hx
        rcases hx with rfl | hx'
        · exact Or.inr (Or.inr rfl)
        · rcases scanUFloat_chars (by rw [hsu, hr]) x hx' with h1 | h1
          · exact Or.inl h1
          · exact Or.inr (Or.inl h1)
    · unfold scanFloat at h
      split at h
      · rename_i heq
        injection heq with hc1 _
        exact absurd hc1 hc
      · intro x hx
        rcases scanUFloat_chars h x hx with h1 | h1
        · exact Or.inl h1
        · exact Or.inr (Or.inl h1)

theorem scanFloat_head {l : List Char} {v : ℚ}
    (h : scanFloat l = some (v, [])) :
    ∃ c l', l = c :: l' ∧ (c.isDigit = true ∨ c = '.' ∨ c = '-') := by
  cases l with
  | nil => exact absurd h (by simp [scanFloat, scanUFloat, scanDigits])
  | cons c l' => exact ⟨c, l', rfl, scanFloat_chars h c (by simp)⟩

theorem scanFloat_head_facts {l : List Char} {v : ℚ}
    (h : scanFloat l = some (v, [])) :
    ∃ c l', l = c :: l' ∧ isSpaceChar c = false ∧ c ≠ 'a' := by
  obtain ⟨c, l', rfl, hc⟩ := scanFloat_head h
  refine ⟨c, l', rfl, ?_, ?_⟩
  · rcases hc with hd | rfl | rfl
    · exact not_ws_of_isDigit hd
    · decide
    · decide
  · rcases hc with hd | rfl | rfl
    · exact ne_of_isDigit hd (by decide)
    · decide
    · decide

theorem valParser_dimTok {t : List Char} {v : Val} (h : DimTok t v)
    (u : List Char) : valParser (t ++ u) = some (v, pms0 u) := by
  rcases h with ⟨rfl, rfl⟩ | ⟨d, x, hd, hcase⟩
  · unfold valParser valAlt
    rw [show pms0 (['a', 'u', 't', 'o'] ++ u) = ['a', 'u', 't', 'o'] ++ u from
      pms0_cons_not_ws (by decide)]
    rw [ptag_self_append]
  · obtain ⟨c, d', hdeq, hcnw, hcna⟩ := scanFloat_head_facts hd
    have hauto : ∀ X : List Char, ptag ['a', 'u', 't', 'o'] (d ++ X) = none := by
      intro X
      rw [hdeq]
      exact ptag_cons_ne hcna
    have hms : ∀ X : List Char, pms0 (d ++ X) = d ++ X := by
      intro X
      rw [hdeq]
      exact pms0_cons_not_ws hcnw
    rcases hcase with ⟨rfl, rfl⟩ | ⟨rfl, rfl⟩ | ⟨rfl, rfl⟩ | ⟨rfl, rfl⟩ |
      ⟨rfl, rfl⟩ | ⟨rfl, rfl⟩
    · -- px
      have hsf : scanFloat (d ++ (['p', 'x'] ++ u)) = some (x, ['p', 'x'] ++ u) :=
        scanFloat_append hd _ rfl
      rw [List.append_assoc]
      unfold valParser valAlt pvalSuffix pfloatTag
      rw [hms, hauto, hsf]
      simp [ptag, List.isPrefixOf]
    · -- %
      have hsf : scanFloat (d ++ (['%'] ++ u)) = some (x, ['%'] ++ u) :=
        scanFloat_append hd _ rfl
      rw [List.append_assoc]
      unfold valParser valAlt pvalSuffix pfloatTag
      rw [hms, hauto, hsf]
      simp [ptag, List.isPrefixOf]
    · -- vw
      have hsf : scanFloat (d ++ (['v', 'w'] ++ u)) = some (x, ['v', 'w'] ++ u) :=
        scanFloat_append hd _ rfl
      rw [List.append_assoc]
      unfold valParser valAlt pvalSuffix pfloatTag
      rw [hms, hauto, hsf]
      simp [ptag, List.isPrefixOf]
    · -- vh
      have hsf : scanFloat (d ++ (['v', 'h'] ++ u)) = some (x, ['v', 'h'] ++ u) :=
        scanFloat_append hd _ rfl
      rw [List.append_assoc]
      unfold valParser valAlt pvalSuffix pfloatTag
      rw [hms, hauto, hsf]
      simp [ptag, List.isPrefixOf]
    · -- vmin
      have hsf : scanFloat (d ++ (['v', 'm', 'i', 'n'] ++ u)) =
          some (x, ['v', 'm', 'i', 'n'] ++ u) :=
        scanFloat_append hd _ rfl
      rw [List.append_assoc]
      unfold valParser valAlt pvalSuffix pfloatTag
      rw [hms, hauto, hsf]
      simp [ptag, List.isPrefixOf]
    · -- vmax
      have hsf : scanFloat (d ++ (['v', 'm', 'a', 'x'] ++ u)) =
          some (x, ['v', 'm', 'a', 'x'] ++ u) :=
        scanFloat_append hd _ rfl
      rw [List.append_assoc]
      unfold valParser valAlt pvalSuffix pfloatTag
      rw [hms, hauto, hsf]
      simp [ptag, List.isPrefixOf]

theorem dimTok_head {t : List Char} {v : Val} (h : DimTok t v) :
    ∃ c t', t = c :: t' ∧ isSpaceChar c = false := by
  rcases h with ⟨rfl, rfl⟩ | ⟨d, x, hd, hcase⟩
  · exact ⟨'a', _, rfl, by decide⟩
  · obtain ⟨c, d', hdeq, hcnw, _⟩ := scanFloat_head_facts hd
    rcases hcase with ⟨rfl, _⟩ | ⟨rfl, _⟩ | ⟨rfl, _⟩ | ⟨rfl, _⟩ |
      ⟨rfl, _⟩ | ⟨rfl, _⟩ <;>
      exact ⟨c, _, by rw [hdeq]; rfl, hcnw⟩

theorem preVal_tok {t : List Char} {v : Val} (h : DimTok t v)
    (u : List Char) : preVal (t ++ u) = some (v, pms0 u) := by
  unfold preVal
  obtain ⟨c, t', hteq, hcnw⟩ := dimTok_head h
  rw [show pms0 (t ++ u) = t ++ u from by rw [hteq]; exact pms0_cons_not_ws hcnw]
  exact valParser_dimTok h u

theorem preVal_tok_nil {t : List Char} {v : Val} (h : DimTok t v) :
    preVal t = some (v, []) := by
  simpa using preVal_tok h []

theorem pms0_sep {t : List Char} {v : Val} (h : DimTok t v) (u : List Char) :
    pms0 (' ' :: (t ++ u)) = t ++ u := by
  rw [pms0_cons_ws (by decide)]
  obtain ⟨c, t', hteq, hcnw⟩ := dimTok_head h
  rw [hteq]
  exact pms0_cons_not_ws hcnw

theorem pms0_sep_nil {t : List Char} {v : Val} (h : DimTok t v) :
    pms0 (' ' :: t) = t := by
  simpa using pms0_sep h []

theorem preVal_nil : preVal [] = none := by decide

theorem fourRect_ok {t1 t2 t3 t4 : List Char} {v1 v2 v3 v4 : Val}
    (h1 : DimTok t1 v1) (h2 : DimTok t2 v2) (h3 : DimTok t3 v3)
    (h4 : DimTok t4 v4) (u : List Char) :
    fourRectParser (t1 ++ ' ' :: (t2 ++ ' ' :: (t3 ++ ' ' :: (t4 ++ u)))) =
      some (UiRect.new v4 v2 v1 v3, pms0 u) := by
  unfold fourRectParser
  simp only [preVal_tok h1, pms0_sep h2, preVal_tok h2, pms0_sep h3,
    preVal_tok h3, pms0_sep h4, preVal_tok h4]

theorem threeRect_ok {t1 t2 t3 : List Char} {v1 v2 v3 : Val}
    (h1 : DimTok t1 v1) (h2 : DimTok t2 v2) (h3 : DimTok t3 v3)
    (u : List Char) :
    threeRectParser (t1 ++ ' ' :: (t2 ++ ' ' :: (t3 ++ u))) =
      some (UiRect.new v2 v2 v1 v3, pms0 u) := by
  unfold threeRectParser
  simp only [preVal_tok h1, pms0_sep h2, preVal_tok h2, pms0_sep h3,
    preVal_tok h3]

theorem twoRect_ok {t1 t2 : List Char} {v1 v2 : Val}
    (h1 : DimTok t1 v1) (h2 : DimTok t2 v2) (u : List Char) :
    twoRectParser (t1 ++ ' ' :: (t2 ++ u)) =
      some (UiRect.new v2 v2 v1 v1, pms0 u) := by
  unfold twoRectParser
  simp only [preVal_tok h1, pms0_sep h2, preVal_tok h2]

theorem oneRect_ok {t1 : List Char} {v1 : Val} (h1 : DimTok t1 v1)
    (u : List Char) :
    oneRectParser (t1 ++ u) = some (UiRect.all v1, pms0 u) := by
  unfold oneRectParser
  simp only [preVal_tok h1]

theorem fourRect_fail3 {t1 t2 t3 : List Char} {v1 v2 v3 : Val}
    (h1 : DimTok t1 v1) (h2 : DimTok t2 v2) (h3 : DimTok t3 v3) :
    fourRectParser (t1 ++ ' ' :: (t2 ++ ' ' :: t3)) = none := by
  unfold fourRectParser
  simp only [preVal_tok h1, pms0_sep h2, preVal_tok h2, pms0_sep_nil h3,
    preVal_tok_nil h3, preVal_nil]

theorem fourRect_fail2 {t1 t2 : List Char} {v1 v2 : Val}
    (h1 : DimTok t1 v1) (h2 : DimTok t2 v2) :
    fourRectParser (t1 ++ ' ' :: t2) = none := by
  unfold fourRectParser
  simp only [preVal_tok h1, pms0_sep_nil h2, preVal_tok_nil h2, preVal_nil]

theorem fourRect_fail1 {t1 : List Char} {v1 : Val} (h1 : DimTok t1 v1) :
    fourRectParser t1 = none := by
  unfold fourRectParser
  simp only [preVal_tok_nil h1, preVal_nil]

theorem threeRect_fail2 {t1 t2 : List Char} {v1 v2 : Val}
    (h1 : DimTok t1 v1) (h2 : DimTok t2 v2) :
    threeRectParser (t1 ++ ' ' :: t2) = none := by
  unfold threeRectParser
  simp only [preVal_tok h1, pms0_sep_nil h2, preVal_tok_nil h2, preVal_nil]

theorem threeRect_fail1 {t1 : List Char} {v1 : Val} (h1 : DimTok t1 v1) :
    threeRectParser t1 = none := by
  unfold threeRectParser
  simp only [preVal_tok_nil h1, preVal_nil]

theorem twoRect_fail1 {t1 : List Char} {v1 : Val} (h1 : DimTok t1 v1) :
    twoRectParser t1 = none := by
  unfold twoRectParser
  simp only [preVal_tok_nil h1, preVal_nil]

theorem rectParser_four {t1 t2 t3 t4 : List Char} {v1 v2 v3 v4 : Val}
    (h1 : DimTok t1 v1) (h2 : DimTok t2 v2) (h3 : DimTok t3 v3)
    (h4 : DimTok t4 v4) :
    rectParser (t1 ++ ' ' :: (t2 ++ ' ' :: (t3 ++ ' ' :: t4))) =
      some (UiRect.new v4 v2 v1 v3, []) := by
  have hf : fourRectParser (t1 ++ ' ' :: (t2 ++ ' ' :: (t3 ++ ' ' :: t4))) =
      some (UiRect.new v4 v2 v1 v3, []) := by
    simpa using fourRect_ok h1 h2 h3 h4 []
  unfold rectParser
  rw [hf]

theorem rectParser_five {t1 t2 t3 t4 t5 : List Char} {v1 v2 v3 v4 v5 : Val}
    (h1 : DimTok t1 v1) (h2 : DimTok t2 v2) (h3 : DimTok t3 v3)
    (h4 : DimTok t4 v4) (h5 : DimTok t5 v5) :
    rectParser (t1 ++ ' ' :: (t2 ++ ' ' :: (t3 ++ ' ' :: (t4 ++ ' ' :: t5)))) =
      some (UiRect.new v4 v2 v1 v3, t5) := by
  have hf := fourRect_ok h1 h2 h3 h4 (' ' :: t5)
  rw [pms0_sep_nil h5] at hf
  unfold rectParser
  rw [hf]

theorem rectParser_three {t1 t2 t3 : List Char} {v1 v2 v3 : Val}
    (h1 : DimTok t1 v1) (h2 : DimTok t2 v2) (h3 : DimTok t3 v3) :
    rectParser (t1 ++ ' ' :: (t2 ++ ' ' :: t3)) =
      some (UiRect.new v2 v2 v1 v3, []) := by
  have ht : threeRectParser (t1 ++ ' ' :: (t2 ++ ' ' :: t3)) =
      some (UiRect.new v2 v2 v1 v3, []) := by
    simpa using threeRect_ok h1 h2 h3 []
  unfold rectParser
  rw [fourRect_fail3 h1 h2 h3, ht]

theorem rectParser_two {t1 t2 : List Char} {v1 v2 : Val}
    (h1 : DimTok t1 v1) (h2 : DimTok t2 v2) :
    rectParser (t1 ++ ' ' :: t2) = some (UiRect.new v2 v2 v1 v1, []) := by
  have ht : twoRectParser (t1 ++ ' ' :: t2) =
      some (UiRect.new v2 v2 v1 v1, []) := by
    simpa using twoRect_ok h1 h2 []
  unfold rectParser
  rw [fourRect_fail2 h1 h2, threeRect_fail2 h1 h2, ht]

theorem rectParser_one {t1 : List Char} {v1 : Val} (h1 : DimTok t1 v1) :
    rectParser t1 = some (UiRect.all v1, []) := by
  have ht : oneRectParser t1 = some (UiRect.all v1, []) := by
    simpa using oneRect_ok h1 []
  unfold rectParser
  rw [fourRect_fail1 h1, threeRect_fail1 h1, twoRect_fail1 h1, ht]

theorem scanFloat_not_ws {l : List Char} {v : ℚ}
    (h : scanFloat l = some (v, [])) :
    ∀ c ∈ l, isSpaceChar c = false := by
  intro c hc
  rcases scanFloat_chars h c hc with hd | rfl | rfl
  · exact not_ws_of_isDigit hd
  · decide
  · decide

theorem angleParser_deg {d : List Char} {v : ℚ}
    (h : scanFloat d = some (v, [])) :
    angleParser (d ++ ['d', 'e', 'g']) = some (toRadians v, []) := by
  have hnw : ∀ c ∈ d ++ ['d', 'e', 'g'], isSpaceChar c = false := by
    intro c hc
    rcases List.mem_append.mp hc with h1 | h1
    · exact scanFloat_not_ws h c h1
    · rcases (by simpa using h1 : c = 'd' ∨ c = 'e' ∨ c = 'g') with rfl | rfl | rfl <;>
        decide
  unfold angleParser pfloatTag
  rw [strTrim_eq_self hnw, scanFloat_append h ['d', 'e', 'g'] (by decide)]
  simp [ptag, List.isPrefixOf]

theorem angleParser_rad {d : List Char} {v : ℚ}
    (h : scanFloat d = some (v, [])) :
    angleParser (d ++ ['r', 'a', 'd']) = some (v, []) := by
  have hnw : ∀ c ∈ d ++ ['r', 'a', 'd'], isSpaceChar c = false := by
    intro c hc
    rcases List.mem_append.mp hc with h1 | h1
    · exact scanFloat_not_ws h c h1
    · rcases (by simpa using h1 : c = 'r' ∨ c = 'a' ∨ c = 'd') with rfl | rfl | rfl <;>
        decide
  unfold angleParser pfloatTag
  rw [strTrim_eq_self hnw, scanFloat_append h ['r', 'a', 'd'] (by decide)]
  simp [ptag, List.isPrefixOf]

theorem angleParser_bare {d : List Char} {v : ℚ}
    (h : scanFloat d = some (v, [])) : angleParser d = some (v, []) := by
  unfold angleParser pfloatTag
  rw [strTrim_eq_self (scanFloat_not_ws h), h]
  simp [ptag, List.isPrefixOf]

theorem valParser_bare_fail {d : List Char} {v : ℚ}
    (h : scanFloat d = some (v, [])) : valParser d = none := by
  obtain ⟨c, d', hdeq, hcnw, hcna⟩ := scanFloat_head_facts h
  unfold valParser valAlt pvalSuffix pfloatTag
  rw [show pms0 d = d from by rw [hdeq]; exact pms0_cons_not_ws hcnw]
  rw [show ptag ['a', 'u', 't', 'o'] d = none from by
    rw [hdeq]; exact ptag_cons_ne hcna]
  rw [h]
  simp [ptag, List.isPrefixOf]

theorem scanUFloat_no_digit {s : List Char}
    (h : ∀ c ∈ s.take 2, c.isDigit = false) : scanUFloat s = none := by
  cases s with
  | nil => rfl
  | cons c r =>
    have hc : c.isDigit = false := h c (by simp)
    have hsd : scanDigits (c :: r) = ([], c :: r) := by simp [scanDigits, hc]
    unfold scanUFloat
    rw [hsd]
    by_cases hdot : c = '.'
    · subst hdot
      cases r with
      | nil => rfl
      | cons c2 r2 =>
        have hc2 : c2.isDigit = false := h c2 (by simp)
        have hsd2 : scanDigits (c2 :: r2) = ([], c2 :: r2) := by
          simp [scanDigits, hc2]
        simp [hsd2]
    · split
      · rename_i snd heq
        injection heq with _ h2
        subst h2
        split
        · rename_i heq2
          injection heq2 with hcd _
          exact absurd hcd hdot
        · rfl
      · rename_i fp rest3 hfp heq
        injection heq with h1 _
        exact absurd h1.symm hfp

theorem scanFloat_no_digit {s : List Char}
    (h : ∀ c ∈ s.take 3, c.isDigit = false) : scanFloat s = none := by
  cases s with
  | nil => rfl
  | cons c r =>
    by_cases hm : c = '-'
    · subst hm
      have hred : scanFloat ('-' :: r) =
          Option.map (fun p => (qneg p.1, p.2)) (scanUFloat r) := rfl
      rw [hred]
      rw [scanUFloat_no_digit (fun x hx => h x (by
        simp only [List.take, List.mem_cons]
        right
        simpa using hx))]
      rfl
    · unfold scanFloat
      split
      · rename_i heq
        injection heq with h1 _
        exact absurd h1 hm
      · apply scanUFloat_no_digit
        intro x hx
        apply h
        have hx2 : x ∈ List.take 2 (List.take 3 (c :: r)) := by
          rw [List.take_take]
          simpa using hx
        exact List.take_subset _ _ hx2

theorem toLower_eq_or (c : Char) :
    Char.toLower c = c ∨ (65 ≤ c.toNat ∧ c.toNat ≤ 90) := by
  unfold Char.toLower
  by_cases h : c.toNat ≥ 65 ∧ c.toNat ≤ 90
  · exact Or.inr ⟨h.1, h.2⟩
  · rw [if_neg h]
    exact Or.inl rfl

theorem letterNat_of_toLower {c : Char}
    (h1 : 97 ≤ (Char.toLower c).toNat) (h2 : (Char.toLower c).toNat ≤ 122) :
    letterNat c := by
  rcases toLower_eq_or c with heq | hup
  · rw [heq] at h1 h2
    exact Or.inr ⟨h1, h2⟩
  · exact Or.inl hup

theorem toLower_fix_of_lower {c : Char} (h : 97 ≤ c.toNat) :
    Char.toLower c = c := by
  unfold Char.toLower
  rw [if_neg]
  rintro ⟨-, h2⟩
  omega

theorem letterNat_not_ws {c : Char} (h : letterNat c) :
    isSpaceChar c = false := by
  apply isSpaceChar_eq_false <;> rintro rfl <;>
    rcases h with ⟨h1, -⟩ | ⟨h1, -⟩ <;> exact absurd h1 (by decide)

theorem letterNat_ne_hash {c : Char} (h : letterNat c) : c ≠ '#' := by
  rintro rfl
  rcases h with ⟨h1, -⟩ | ⟨h1, -⟩ <;> exact absurd h1 (by decide)

theorem letterNat_ne_lparen {c : Char} (h : letterNat c) : c ≠ '(' := by
  rintro rfl
  rcases h with ⟨h1, -⟩ | ⟨h1, -⟩ <;> exact absurd h1 (by decide)

theorem tableGet_eq_none {tbl : List (List Char × Color)} {k : List Char}
    (h : ∀ e ∈ tbl, e.1 ≠ k) : tableGet tbl k = none := by
  induction tbl with
  | nil => rfl
  | cons e rest ih =>
    unfold tableGet
    rw [if_neg (h e (by simp))]
    exact ih (fun x hx => h x (by simp [hx]))

theorem colorFn_fail {O : Type} (name : List Char)
    (inner : List Char → Option (O × List Char)) {s : List Char}
    (hms : pms0 s = s) (hnp : ∀ c ∈ s, c ≠ '(') :
    colorFnParser name inner s = none := by
  unfold colorFnParser
  rw [hms]
  rcases hn : ptag name s with _ | ⟨a, b⟩
  · rfl
  · have hb : b = s.drop name.length := by
      unfold ptag at hn
      split at hn
      · injection hn with hn2
        injection hn2 with _ h2
        exact h2.symm
      · exact absurd hn (by simp)
    rcases hd : s.drop name.length with _ | ⟨c, rest⟩
    · rw [hb, hd]
      simp [ptag_nil]
    · rw [hb, hd]
      simp [ptag_cons_ne (hnp c (List.mem_of_mem_drop (by rw [hd]; simp)))]

theorem colorHex8_fail_head {c : Char} {r : List Char} (h : c ≠ '#') :
    colorHex8Parser (c :: r) = none := by
  unfold colorHex8Parser
  rw [ptag_cons_ne h]

theorem colorHex6_fail_head {c : Char} {r : List Char} (h : c ≠ '#') :
    colorHex6Parser (c :: r) = none := by
  unfold colorHex6Parser
  rw [ptag_cons_ne h]

theorem colorHex3_fail_head {c : Char} {r : List Char} (h : c ≠ '#') :
    colorHex3Parser (c :: r) = none := by
  unfold colorHex3Parser
  rw [ptag_cons_ne h]

theorem colorParser_letters_fail {s : List Char} (hne : s ≠ [])
    (hlet : ∀ c ∈ s, letterNat c)
    (hkey : tableGet cssColorTable (strTrim s) = none) :
    colorParser s = none := by
  obtain ⟨c, s', rfl⟩ : ∃ c s', s = c :: s' := by
    cases s with
    | nil => exact absurd rfl hne
    | cons c s' => exact ⟨c, s', rfl⟩
  have hms : pms0 (c :: s') = c :: s' :=
    pms0_cons_not_ws (letterNat_not_ws (hlet c (by simp)))
  have hnp : ∀ x ∈ c :: s', x ≠ '(' := fun x hx =>
    letterNat_ne_lparen (hlet x hx)
  have hhash : c ≠ '#' := letterNat_ne_hash (hlet c (by simp))
  unfold colorParser colorAlt
  rw [hms]
  rw [show colorRgbParser (c :: s') = none from by
    unfold colorRgbParser
    rw [colorFn_fail _ _ hms hnp]]
  rw [show colorRgbaParser (c :: s') = none from by
    unfold colorRgbaParser
    rw [colorFn_fail _ _ hms hnp]]
  rw [show colorHslParser (c :: s') = none from by
    unfold colorHslParser
    rw [colorFn_fail _ _ hms hnp]]
  rw [show colorHslaParser (c :: s') = none from by
    unfold colorHslaParser
    rw [colorFn_fail _ _ hms hnp]]
  rw [colorHex8_fail_head hhash, colorHex6_fail_head hhash,
    colorHex3_fail_head hhash]
  unfold colorCssNamesParser
  rw [hkey]

theorem hexdigit_not_ws {c : Char} (h : is_hex_digit c = true) :
    isSpaceChar c = false := by
  apply isSpaceChar_eq_false <;> rintro rfl <;> exact absurd h (by decide)

theorem hexdigit_ne_lparen {c : Char} (h : is_hex_digit c = true) :
    c ≠ '(' := by
  rintro rfl
  exact absurd h (by decide)

theorem colorParser_hex4 {h1 h2 h3 h4 : Char} (e1 : is_hex_digit h1 = true)
    (e2 : is_hex_digit h2 = true) (e3 : is_hex_digit h3 = true)
    (e4 : is_hex_digit h4 = true) :
    colorParser ('#' :: [h1, h2, h3, h4]) =
      some (Color.rgb_u8 (from_half_hex h1) (from_half_hex h2)
        (from_half_hex h3), [h4]) := by
  have hms : pms0 ('#' :: [h1, h2, h3, h4]) = '#' :: [h1, h2, h3, h4] :=
    pms0_cons_not_ws (by decide)
  have hnp : ∀ x ∈ '#' :: [h1, h2, h3, h4], x ≠ '(' := by
    intro x hx
    rcases (by simpa using hx : x = '#' ∨ x = h1 ∨ x = h2 ∨ x = h3 ∨ x = h4)
      with rfl | rfl | rfl | rfl | rfl
    · decide
    · exact hexdigit_ne_lparen e1
    · exact hexdigit_ne_lparen e2
    · exact hexdigit_ne_lparen e3
    · exact hexdigit_ne_lparen e4
  unfold colorParser colorAlt
  rw [hms]
  rw [show colorRgbParser ('#' :: [h1, h2, h3, h4]) = none from by
    unfold colorRgbParser
    rw [colorFn_fail _ _ hms hnp]]
  rw [show colorRgbaParser ('#' :: [h1, h2, h3, h4]) = none from by
    unfold colorRgbaParser
    rw [colorFn_fail _ _ hms hnp]]
  rw [show colorHslParser ('#' :: [h1, h2, h3, h4]) = none from by
    unfold colorHslParser
    rw [colorFn_fail _ _ hms hnp]]
  rw [show colorHslaParser ('#' :: [h1, h2, h3, h4]) = none from by
    unfold colorHslaParser
    rw [colorFn_fail _ _ hms hnp]]
  rw [show colorHex8Parser ('#' :: [h1, h2, h3, h4]) = none from by
    simp [colorHex8Parser, ptag, List.isPrefixOf, hex_primary, e1, e2, e3, e4]]
  rw [show colorHex6Parser ('#' :: [h1, h2, h3, h4]) = none from by
    simp [colorHex6Parser, ptag, List.isPrefixOf, hex_primary, e1, e2, e3, e4]]
  rw [show colorHex3Parser ('#' :: [h1, h2, h3, h4]) =
      some (Color.rgb_u8 (from_half_hex h1) (from_half_hex h2)
        (from_half_hex h3), [h4]) from by
    simp [colorHex3Parser, ptag, List.isPrefixOf, hex_half, e1, e2, e3]]
  simp [pms0_cons_not_ws (hexdigit_not_ws e4)]

theorem colorParser_hex5 {h1 h2 h3 h4 h5 : Char} (e1 : is_hex_digit h1 = true)
    (e2 : is_hex_digit h2 = true) (e3 : is_hex_digit h3 = true)
    (e4 : is_hex_digit h4 = true) (e5 : is_hex_digit h5 = true) :
    colorParser ('#' :: [h1, h2, h3, h4, h5]) =
      some (Color.rgb_u8 (from_half_hex h1) (from_half_hex h2)
        (from_half_hex h3), [h4, h5]) := by
  have hms : pms0 ('#' :: [h1, h2, h3, h4, h5]) = '#' :: [h1, h2, h3, h4, h5] :=
    pms0_cons_not_ws (by decide)
  have hnp : ∀ x ∈ '#' :: [h1, h2, h3, h4, h5], x ≠ '(' := by
    intro x hx
    rcases (by simpa using hx :
        x = '#' ∨ x = h1 ∨ x = h2 ∨ x = h3 ∨ x = h4 ∨ x = h5)
      with rfl | rfl | rfl | rfl | rfl | rfl
    · decide
    · exact hexdigit_ne_lparen e1
    · exact hexdigit_ne_lparen e2
    · exact hexdigit_ne_lparen e3
    · exact hexdigit_ne_lparen e4
    · exact hexdigit_ne_lparen e5
  unfold colorParser colorAlt
  rw [hms]
  rw [show colorRgbParser ('#' :: [h1, h2, h3, h4, h5]) = none from by
    unfold colorRgbParser
    rw [colorFn_fail _ _ hms hnp]]
  rw [show colorRgbaParser ('#' :: [h1, h2, h3, h4, h5]) = none from by
    unfold colorRgbaParser
    rw [colorFn_fail _ _ hms hnp]]
  rw [show colorHslParser ('#' :: [h1, h2, h3, h4, h5]) = none from by
    unfold colorHslParser
    rw [colorFn_fail _ _ hms hnp]]
  rw [show colorHslaParser ('#' :: [h1, h2, h3, h4, h5]) = none from by
    unfold colorHslaParser
    rw [colorFn_fail _ _ hms hnp]]
  rw [show colorHex8Parser ('#' :: [h1, h2, h3, h4, h5]) = none from by
    simp [colorHex8Parser, ptag, List.isPrefixOf, hex_primary,
      e1, e2, e3, e4, e5]]
  rw [show colorHex6Parser ('#' :: [h1, h2, h3, h4, h5]) = none from by
    simp [colorHex6Parser, ptag, List.isPrefixOf, hex_primary,
      e1, e2, e3, e4, e5]]
  rw [show colorHex3Parser ('#' :: [h1, h2, h3, h4, h5]) =
      some (Color.rgb_u8 (from_half_hex h1) (from_half_hex h2)
        (from_half_hex h3), [h4, h5]) from by
    simp [colorHex3Parser, ptag, List.isPrefixOf, hex_half, e1, e2, e3]]
  simp [pms0_cons_not_ws (hexdigit_not_ws e4)]

theorem colorParser_hex7 {h1 h2 h3 h4 h5 h6 h7 : Char}
    (e1 : is_hex_digit h1 = true) (e2 : is_hex_digit h2 = true)
    (e3 : is_hex_digit h3 = true) (e4 : is_hex_digit h4 = true)
    (e5 : is_hex_digit h5 = true) (e6 : is_hex_digit h6 = true)
    (e7 : is_hex_digit h7 = true) :
    colorParser ('#' :: [h1, h2, h3, h4, h5, h6, h7]) =
      some (Color.rgb_u8 (from_hex h1 h2) (from_hex h3 h4)
        (from_hex h5 h6), [h7]) := by
  have hms : pms0 ('#' :: [h1, h2, h3, h4, h5, h6, h7]) =
      '#' :: [h1, h2, h3, h4, h5, h6, h7] :=
    pms0_cons_not_ws (by decide)
  have hnp : ∀ x ∈ '#' :: [h1, h2, h3, h4, h5, h6, h7], x ≠ '(' := by
    intro x hx
    rcases (by simpa using hx :
        x = '#' ∨ x = h1 ∨ x = h2 ∨ x = h3 ∨ x = h4 ∨ x = h5 ∨ x = h6 ∨ x = h7)
      with rfl | rfl | rfl | rfl | rfl | rfl | rfl | rfl
    · decide
    · exact hexdigit_ne_lparen e1
    · exact hexdigit_ne_lparen e2
    · exact hexdigit_ne_lparen e3
    · exact hexdigit_ne_lparen e4
    · exact hexdigit_ne_lparen e5
    · exact hexdigit_ne_lparen e6
    · exact hexdigit_ne_lparen e7
  unfold colorParser colorAlt
  rw [hms]
  rw [show colorRgbParser ('#' :: [h1, h2, h3, h4, h5, h6, h7]) = none from by
    unfold colorRgbParser
    rw [colorFn_fail _ _ hms hnp]]
  rw [show colorRgbaParser ('#' :: [h1, h2, h3, h4, h5, h6, h7]) = none from by
    unfold colorRgbaParser
    rw [colorFn_fail _ _ hms hnp]]
  rw [show colorHslParser ('#' :: [h1, h2, h3, h4, h5, h6, h7]) = none from by
    unfold colorHslParser
    rw [colorFn_fail _ _ hms hnp]]
  rw [show colorHslaParser ('#' :: [h1, h2, h3, h4, h5, h6, h7]) = none from by
    unfold colorHslaParser
    rw [colorFn_fail _ _ hms hnp]]
  rw [show colorHex8Parser ('#' :: [h1, h2, h3, h4, h5, h6, h7]) = none from by
    simp [colorHex8Parser, ptag, List.isPrefixOf, hex_primary,
      e1, e2, e3, e4, e5, e6, e7]]
  rw [show colorHex6Parser ('#' :: [h1, h2, h3, h4, h5, h6, h7]) =
      some (Color.rgb_u8 (from_hex h1 h2) (from_hex h3 h4)
        (from_hex h5 h6), [h7]) from by
    simp [colorHex6Parser, ptag, List.isPrefixOf, hex_primary,
      e1, e2, e3, e4, e5, e6]]
  simp [pms0_cons_not_ws (hexdigit_not_ws e7)]

theorem map_toLower_fix {s : List Char} (h : ∀ c ∈ s, 97 ≤ c.toNat) :
    s.map Char.toLower = s := by
  induction s with
  | nil => rfl
  | cons c r ih =>
    simp only [List.map_cons, toLower_fix_of_lower (h c (by simp))]
    rw [ih (fun x hx => h x (by simp [hx]))]

/-- C1 (counterexample): the angle grammar matches only the proper prefix
`1rad` of `1rad 2`, leaving the non-whitespace remainder ` 2` unconsumed,
yet `angle_string_parser` returns `Some 1`, not `None` as claimed. -/
theorem c1_counterexample :
    angleParser "1rad 2".toList = some (1, " 2".toList) ∧
    angleStringParser "1rad 2".toList = some 1 ∧
    angleStringParser "1rad 2".toList ≠ none := by
  refine ⟨by decide, by decide, by decide⟩

/-- C1 (amended): every string-level wrapper returns the value of any
successful grammar parse regardless of the unconsumed remainder (which may
contain non-whitespace), and returns `None` exactly when the grammar
itself fails; each family accepts a prefix-only match, as the four
concrete leftover inputs show. -/
theorem c1_wrappers_ignore_remainder :
    (∀ s v r, angleParser s = some (v, r) → angleStringParser s = some v) ∧
    (∀ s, angleParser s = none → angleStringParser s = none) ∧
    (∀ s v r, valParser s = some (v, r) → valStringParser s = some v) ∧
    (∀ s, valParser s = none → valStringParser s = none) ∧
    (∀ s v r, colorParser s = some (v, r) → colorStringParser s = some v) ∧
    (∀ s, colorParser s = none → colorStringParser s = none) ∧
    (∀ s v r, rectParser s = some (v, r) → rectStringParser s = some v) ∧
    (∀ s, rectParser s = none → rectStringParser s = none) ∧
    valParser "1px junk".toList = some (Val.Px 1, "junk".toList) ∧
    valStringParser "1px junk".toList = some (Val.Px 1) ∧
    colorParser "rgb(1, 0, 0) x".toList = some (Color.rgb 1 0 0, ['x']) ∧
    colorStringParser "rgb(1, 0, 0) x".toList = some (Color.rgb 1 0 0) ∧
    rectParser "1px x".toList = some (UiRect.all (Val.Px 1), ['x']) ∧
    rectStringParser "1px x".toList = some (UiRect.all (Val.Px 1)) := by
  refine ⟨fun s v r h => by simp [angleStringParser, h],
    fun s h => by simp [angleStringParser, h],
    fun s v r h => by simp [valStringParser, h],
    fun s h => by simp [valStringParser, h],
    fun s v r h => by simp [colorStringParser, h],
    fun s h => by simp [colorStringParser, h],
    fun s v r h => by simp [rectStringParser, h],
    fun s h => by simp [rectStringParser, h],
    by decide, by decide, by decide, by decide, by decide, by decide⟩

theorem c1_witness :
    angleParser "3rad junk".toList = some (3, " junk".toList) ∧
    angleStringParser "3rad junk".toList = some 3 :=
  ⟨by decide, c1_wrappers_ignore_remainder.1 "3rad junk".toList 3
    " junk".toList (by decide)⟩

/-- C2 (counterexample): the five-token input `1px 2px 3px 4px 5px` does
not fail cleanly — `rect_parser` truncates to the first four tokens and
`rect_string_parser` returns `Some` of that rect instead of `None`. -/
theorem c2_counterexample :
    rectParser "1px 2px 3px 4px 5px".toList =
      some (UiRect.new (Val.Px 4) (Val.Px 2) (Val.Px 1) (Val.Px 3),
        "5px".toList) ∧
    rectStringParser "1px 2px 3px 4px 5px".toList =
      some (UiRect.new (Val.Px 4) (Val.Px 2) (Val.Px 1) (Val.Px 3)) ∧
    rectStringParser "1px 2px 3px 4px 5px".toList ≠ none := by
  refine ⟨by decide, by decide, by decide⟩

/-- C2 (amended): on five whitespace-separated dimension tokens the
four-value arity succeeds after its fourth element, leaving the fifth
token as non-empty unconsumed remainder; `rect_parser` therefore succeeds
by truncation to the first four tokens and `rect_string_parser` returns
`Some` of the four-token expansion, not `None`. -/
theorem c2_five_tokens_truncate {t1 t2 t3 t4 t5 : List Char}
    {v1 v2 v3 v4 v5 : Val} (h1 : DimTok t1 v1) (h2 : DimTok t2 v2)
    (h3 : DimTok t3 v3) (h4 : DimTok t4 v4) (h5 : DimTok t5 v5) :
    rectParser (t1 ++ ' ' :: (t2 ++ ' ' :: (t3 ++ ' ' :: (t4 ++ ' ' :: t5)))) =
      some (UiRect.new v4 v2 v1 v3, t5) ∧
    rectStringParser
        (t1 ++ ' ' :: (t2 ++ ' ' :: (t3 ++ ' ' :: (t4 ++ ' ' :: t5)))) =
      some (UiRect.new v4 v2 v1 v3) ∧
    t5 ≠ [] := by
  have hr := rectParser_five h1 h2 h3 h4 h5
  obtain ⟨c, t', hteq, -⟩ := dimTok_head h5
  exact ⟨hr, by simp [rectStringParser, hr], by rw [hteq]; simp⟩

theorem c2_witness :
    rectParser ("1px".toList ++ ' ' :: ("2px".toList ++ ' ' ::
        ("3px".toList ++ ' ' :: ("4px".toList ++ ' ' :: "5px".toList)))) =
      some (UiRect.new (Val.Px 4) (Val.Px 2) (Val.Px 1) (Val.Px 3),
        "5px".toList) := by
  have d1 : DimTok "1px".toList (Val.Px 1) :=
    Or.inr ⟨"1".toList, 1, by decide, Or.inl ⟨by decide, rfl⟩⟩
  have d2 : DimTok "2px".toList (Val.Px 2) :=
    Or.inr ⟨"2".toList, 2, by decide, Or.inl ⟨by decide, rfl⟩⟩
  have d3 : DimTok "3px".toList (Val.Px 3) :=
    Or.inr ⟨"3".toList, 3, by decide, Or.inl ⟨by decide, rfl⟩⟩
  have d4 : DimTok "4px".toList (Val.Px 4) :=
    Or.inr ⟨"4".toList, 4, by decide, Or.inl ⟨by decide, rfl⟩⟩
  have d5 : DimTok "5px".toList (Val.Px 5) :=
    Or.inr ⟨"5".toList, 5, by decide, Or.inl ⟨by decide, rfl⟩⟩
  exact (c2_five_tokens_truncate d1 d2 d3 d4 d5).1

/-- C3 (counterexample): `#ABCD` (4 hex digits), `#ABCDE` (5) and
`#ABCDEFA` (7) do not make `color_string_parser` return `None`: the
3-digit (resp. 6-digit) hex alternative matches a prefix and the wrapper
keeps its value, discarding the leftover digits. -/
theorem c3_counterexample :
    colorStringParser "#ABCD".toList = some (Color.rgb_u8 170 187 204) ∧
    colorStringParser "#ABCD".toList ≠ none ∧
    colorStringParser "#ABCDE".toList = some (Color.rgb_u8 170 187 204) ∧
    colorStringParser "#ABCDE".toList ≠ none ∧
    colorStringParser "#ABCDEFA".toList = some (Color.rgb_u8 171 205 239) ∧
    colorStringParser "#ABCDEFA".toList ≠ none := by
  refine ⟨by decide, by decide, by decide, by decide, by decide, by decide⟩

/-- C3 (amended): there is no 4-, 5- or 7-digit hex form, but such inputs
do not fail: on `#` + 4 or 5 hex digits the 3-digit alternative parses the
first three digits (leaving one or two digits unconsumed), on `#` + 7 hex
digits the 6-digit alternative parses the first six (leaving one digit),
and `color_string_parser` returns `Some` of the truncated color. -/
theorem c3_hex_truncation :
    (∀ h1 h2 h3 h4 : Char, is_hex_digit h1 = true → is_hex_digit h2 = true →
      is_hex_digit h3 = true → is_hex_digit h4 = true →
      colorParser ('#' :: [h1, h2, h3, h4]) =
        some (Color.rgb_u8 (from_half_hex h1) (from_half_hex h2)
          (from_half_hex h3), [h4]) ∧
      colorStringParser ('#' :: [h1, h2, h3, h4]) =
        some (Color.rgb_u8 (from_half_hex h1) (from_half_hex h2)
          (from_half_hex h3))) ∧
    (∀ h1 h2 h3 h4 h5 : Char, is_hex_digit h1 = true →
      is_hex_digit h2 = true → is_hex_digit h3 = true →
      is_hex_digit h4 = true → is_hex_digit h5 = true →
      colorParser ('#' :: [h1, h2, h3, h4, h5]) =
        some (Color.rgb_u8 (from_half_hex h1) (from_half_hex h2)
          (from_half_hex h3), [h4, h5]) ∧
      colorStringParser ('#' :: [h1, h2, h3, h4, h5]) =
        some (Color.rgb_u8 (from_half_hex h1) (from_half_hex h2)
          (from_half_hex h3))) ∧
    (∀ h1 h2 h3 h4 h5 h6 h7 : Char, is_hex_digit h1 = true →
      is_hex_digit h2 = true → is_hex_digit h3 = true →
      is_hex_digit h4 = true → is_hex_digit h5 = true →
      is_hex_digit h6 = true → is_hex_digit h7 = true →
      colorParser ('#' :: [h1, h2, h3, h4, h5, h6, h7]) =
        some (Color.rgb_u8 (from_hex h1 h2) (from_hex h3 h4)
          (from_hex h5 h6), [h7]) ∧
      colorStringParser ('#' :: [h1, h2, h3, h4, h5, h6, h7]) =
        some (Color.rgb_u8 (from_hex h1 h2) (from_hex h3 h4)
          (from_hex h5 h6))) := by
  refine ⟨fun h1 h2 h3 h4 e1 e2 e3 e4 => ?_,
    fun h1 h2 h3 h4 h5 e1 e2 e3 e4 e5 => ?_,
    fun h1 h2 h3 h4 h5 h6 h7 e1 e2 e3 e4 e5 e6 e7 => ?_⟩
  · have hc := colorParser_hex4 e1 e2 e3 e4
    exact ⟨hc, by simp [colorStringParser, hc]⟩
  · have hc := colorParser_hex5 e1 e2 e3 e4 e5
    exact ⟨hc, by simp [colorStringParser, hc]⟩
  · have hc := colorParser_hex7 e1 e2 e3 e4 e5 e6 e7
    exact ⟨hc, by simp [colorStringParser, hc]⟩

theorem c3_witness :
    colorParser ('#' :: ['A', 'B', 'C', 'D']) =
      some (Color.rgb_u8 (from_half_hex 'A') (from_half_hex 'B')
        (from_half_hex 'C'), ['D']) :=
  ((c3_hex_truncation.1 'A' 'B' 'C' 'D' (by decide) (by decide) (by decide)
    (by decide)).1)

/-- C4: CSS shorthand expansion of the rect grammar.  `UiRect.new` takes
the sides in bevy's order `left right top bottom`, so
`UiRect.new v4 v2 v1 v3` is the rect with top = e1, right = e2,
bottom = e3, left = e4, and likewise below: 3 tokens give
top = e1, left = right = e2, bottom = e3; 2 tokens give
top = bottom = e1, left = right = e2; 1 token sets all four sides.
The concrete non-symmetric instance `1px 2px 3px 4px` yields
top = Px 1, right = Px 2, bottom = Px 3, left = Px 4. -/
theorem c4_rect_shorthand_expansion :
    (∀ t1 t2 t3 t4 : List Char, ∀ v1 v2 v3 v4 : Val, DimTok t1 v1 →
      DimTok t2 v2 → DimTok t3 v3 → DimTok t4 v4 →
      rectParser (t1 ++ ' ' :: (t2 ++ ' ' :: (t3 ++ ' ' :: t4))) =
        some (UiRect.new v4 v2 v1 v3, [])) ∧
    (∀ t1 t2 t3 : List Char, ∀ v1 v2 v3 : Val, DimTok t1 v1 →
      DimTok t2 v2 → DimTok t3 v3 →
      rectParser (t1 ++ ' ' :: (t2 ++ ' ' :: t3)) =
        some (UiRect.new v2 v2 v1 v3, [])) ∧
    (∀ t1 t2 : List Char, ∀ v1 v2 : Val, DimTok t1 v1 → DimTok t2 v2 →
      rectParser (t1 ++ ' ' :: t2) = some (UiRect.new v2 v2 v1 v1, [])) ∧
    (∀ t1 : List Char, ∀ v1 : Val, DimTok t1 v1 →
      rectParser t1 = some (UiRect.all v1, [])) ∧
    rectParser "1px 2px 3px 4px".toList =
      some (UiRect.new (Val.Px 4) (Val.Px 2) (Val.Px 1) (Val.Px 3), []) ∧
    rectStringParser "1px 2px 3px 4px".toList =
      some (UiRect.new (Val.Px 4) (Val.Px 2) (Val.Px 1) (Val.Px 3)) := by
  refine ⟨fun t1 t2 t3 t4 v1 v2 v3 v4 h1 h2 h3 h4 =>
      rectParser_four h1 h2 h3 h4,
    fun t1 t2 t3 v1 v2 v3 h1 h2 h3 => rectParser_three h1 h2 h3,
    fun t1 t2 v1 v2 h1 h2 => rectParser_two h1 h2,
    fun t1 v1 h1 => rectParser_one h1, by decide, by decide⟩

theorem c4_witness :
    rectParser ("1px".toList ++ ' ' :: ("2px".toList ++ ' ' ::
        ("3px".toList ++ ' ' :: "4px".toList))) =
      some (UiRect.new (Val.Px 4) (Val.Px 2) (Val.Px 1) (Val.Px 3), []) := by
  have d1 : DimTok "1px".toList (Val.Px 1) :=
    Or.inr ⟨"1".toList, 1, by decide, Or.inl ⟨by decide, rfl⟩⟩
  have d2 : DimTok "2px".toList (Val.Px 2) :=
    Or.inr ⟨"2".toList, 2, by decide, Or.inl ⟨by decide, rfl⟩⟩
  have d3 : DimTok "3px".toList (Val.Px 3) :=
    Or.inr ⟨"3".toList, 3, by decide, Or.inl ⟨by decide, rfl⟩⟩
  have d4 : DimTok "4px".toList (Val.Px 4) :=
    Or.inr ⟨"4".toList, 4, by decide, Or.inl ⟨by decide, rfl⟩⟩
  exact c4_rect_shorthand_expansion.1 _ _ _ _ _ _ _ _ d1 d2 d3 d4

/-- C5: the five red spellings all parse to the same opaque pure-red
color: `Rgba 1 0 0 1` (3-digit hex duplicates each digit into a byte,
6-digit hex and the named form default alpha to opaque, and the 8-digit
and `rgb(..)` functional forms agree with them). -/
theorem c5_red_equivalence :
    colorStringParser "#FF0000".toList = some (Color.Rgba 1 0 0 1) ∧
    colorStringParser "#FF0000FF".toList = some (Color.Rgba 1 0 0 1) ∧
    colorStringParser "#F00".toList = some (Color.Rgba 1 0 0 1) ∧
    colorStringParser "rgb(1.0, 0, 0)".toList = some (Color.Rgba 1 0 0 1) ∧
    colorStringParser "red".toList = some (Color.Rgba 1 0 0 1) := by
  refine ⟨by decide, by decide, by decide, by decide, by decide⟩

/-- C6: for every valid float literal `d` (a string the numeric scanner
consumes completely), parsing `d ++ "deg"` yields `to_radians` of the
value of parsing `d`, parsing `d ++ "rad"` yields the same value as
parsing bare `d` (radians by default), and in all three cases the whole
input is consumed — the suffix is never left over, because the suffixed
alternatives are tried before the bare-float fallback. -/
theorem c6_angle_deg_rad_relations :
    ∀ (d : List Char) (v : ℚ), scanFloat d = some (v, []) →
      angleParser (d ++ "deg".toList) = some (toRadians v, []) ∧
      angleParser (d ++ "rad".toList) = some (v, []) ∧
      angleParser d = some (v, []) ∧
      angleStringParser (d ++ "deg".toList) = some (toRadians v) ∧
      angleStringParser (d ++ "rad".toList) = some v ∧
      angleStringParser d = some v := by
  intro d v h
  have hdeg : angleParser (d ++ "deg".toList) = some (toRadians v, []) :=
    angleParser_deg h
  have hrad : angleParser (d ++ "rad".toList) = some (v, []) :=
    angleParser_rad h
  have hbare : angleParser d = some (v, []) := angleParser_bare h
  have hdeg2 : angleParser (d ++ ['d', 'e', 'g']) = some (toRadians v, []) :=
    hdeg
  have hrad2 : angleParser (d ++ ['r', 'a', 'd']) = some (v, []) := hrad
  exact ⟨hdeg, hrad, hbare, by simp [angleStringParser, hdeg2],
    by simp [angleStringParser, hrad2], by simp [angleStringParser, hbare]⟩

theorem c6_witness :
    angleParser ("12.5".toList ++ "deg".toList) =
      some (toRadians (mkRat 25 2), []) ∧
    angleParser ("12.5".toList ++ "rad".toList) = some (mkRat 25 2, []) ∧
    angleParser "12.5".toList = some (mkRat 25 2, []) := by
  have h := c6_angle_deg_rad_relations "12.5".toList (mkRat 25 2) (by decide)
  exact ⟨h.1, h.2.1, h.2.2.1⟩

/-- C7: `auto` parses to the payload-free `Auto` variant; every valid
float literal followed by one of the six unit suffixes parses to the
correspondingly tagged variant carrying the literal's value; and a bare
literal with no suffix (and no `auto`) always fails — there is no
unit-less fallback in the dimension grammar. -/
theorem c7_dimension_grammar :
    valParser "auto".toList = some (Val.Auto, []) ∧
    valStringParser "auto".toList = some Val.Auto ∧
    (∀ (d : List Char) (v : ℚ), scanFloat d = some (v, []) →
      valParser (d ++ "px".toList) = some (Val.Px v, []) ∧
      valParser (d ++ "%".toList) = some (Val.Percent v, []) ∧
      valParser (d ++ "vw".toList) = some (Val.Vw v, []) ∧
      valParser (d ++ "vh".toList) = some (Val.Vh v, []) ∧
      valParser (d ++ "vmin".toList) = some (Val.VMin v, []) ∧
      valParser (d ++ "vmax".toList) = some (Val.VMax v, []) ∧
      valParser d = none ∧
      valStringParser d = none) := by
  refine ⟨by decide, by decide, fun d v h => ?_⟩
  have hpx : valParser (d ++ "px".toList) = some (Val.Px v, []) := by
    simpa using valParser_dimTok (Or.inr ⟨d, v, h, Or.inl ⟨rfl, rfl⟩⟩) []
  have hpc : valParser (d ++ "%".toList) = some (Val.Percent v, []) := by
    simpa using valParser_dimTok
      (Or.inr ⟨d, v, h, Or.inr (Or.inl ⟨rfl, rfl⟩)⟩) []
  have hvw : valParser (d ++ "vw".toList) = some (Val.Vw v, []) := by
    simpa using valParser_dimTok
      (Or.inr ⟨d, v, h, Or.inr (Or.inr (Or.inl ⟨rfl, rfl⟩))⟩) []
  have hvh : valParser (d ++ "vh".toList) = some (Val.Vh v, []) := by
    simpa using valParser_dimTok
      (Or.inr ⟨d, v, h, Or.inr (Or.inr (Or.inr (Or.inl ⟨rfl, rfl⟩)))⟩) []
  have hvmin : valParser (d ++ "vmin".toList) = some (Val.VMin v, []) := by
    simpa using valParser_dimTok
      (Or.inr ⟨d, v, h,
        Or.inr (Or.inr (Or.inr (Or.inr (Or.inl ⟨rfl, rfl⟩))))⟩) []
  have hvmax : valParser (d ++ "vmax".toList) = some (Val.VMax v, []) := by
    simpa using valParser_dimTok
      (Or.inr ⟨d, v, h,
        Or.inr (Or.inr (Or.inr (Or.inr (Or.inr ⟨rfl, rfl⟩))))⟩) []
  have hbare : valParser d = none := valParser_bare_fail h
  exact ⟨hpx, hpc, hvw, hvh, hvmin, hvmax, hbare,
    by simp [valStringParser, hbare]⟩

theorem c7_witness :
    valParser ("1".toList ++ "px".toList) = some (Val.Px 1, []) ∧
    valParser "1".toList = none := by
  have h := c7_dimension_grammar.2.2 "1".toList 1 (by decide)
  exact ⟨h.1, h.2.2.2.2.2.2.1⟩

/-- C8: the numeric literal scanner succeeds only if a decimal digit
occurs among the (at most three) characters it can inspect before
requiring one — so any input whose first three characters contain no
digit fails, and in particular a bare `.` and a bare `-` are not valid
literals, also through the angle grammar whose bare-float alternative
uses the scanner directly. -/
theorem c8_scanner_requires_digit :
    (∀ s : List Char, (∀ c ∈ s.take 3, c.isDigit = false) →
      scanFloat s = none) ∧
    scanFloat ".".toList = none ∧
    scanFloat "-".toList = none ∧
    angleParser ".".toList = none ∧
    angleParser "-".toList = none ∧
    angleStringParser ".".toList = none ∧
    angleStringParser "-".toList = none := by
  refine ⟨fun s h => scanFloat_no_digit h, by decide, by decide, by decide,
    by decide, by decide, by decide⟩

theorem c8_witness : scanFloat "abc".toList = none :=
  c8_scanner_requires_digit.1 "abc".toList (by decide)

/-- C9: named-color lookup is exact-match and case-sensitive.  Any string
that differs from a table key only by letter case (it lowercases to a key
but is not itself that all-lowercase key) makes `color_parser` and
`color_string_parser` fail, because the trimmed input is compared
byte-for-byte against the all-lowercase keys; and every exact lowercase
key does parse to its table color. -/
theorem c9_named_colors_case_sensitive :
    (∀ s : List Char, (∃ e ∈ cssColorTable, e.1 = s.map Char.toLower) →
      s ≠ s.map Char.toLower →
      colorParser s = none ∧ colorStringParser s = none) ∧
    cssColorTable.all
      (fun kc => colorStringParser kc.1 == some kc.2) = true := by
  constructor
  · intro s hmem hne
    obtain ⟨e, he, hkey⟩ := hmem
    have htbl : ∀ e2 ∈ cssColorTable,
        (∀ c ∈ e2.1, 97 ≤ c.toNat ∧ c.toNat ≤ 122) ∧ e2.1 ≠ [] := by decide
    have hkchars := (htbl e he).1
    have hlet : ∀ c ∈ s, letterNat c := by
      intro c hc
      have hmem2 : Char.toLower c ∈ e.1 := by
        rw [hkey]
        exact List.mem_map_of_mem _ hc
      obtain ⟨ha, hb⟩ := hkchars _ hmem2
      exact letterNat_of_toLower ha hb
    have hsne : s ≠ [] := by
      rintro rfl
      exact (htbl e he).2 (by simpa using hkey)
    have htrim : strTrim s = s :=
      strTrim_eq_self (fun c hc => letterNat_not_ws (hlet c hc))
    have hget : tableGet cssColorTable (strTrim s) = none := by
      rw [htrim]
      apply tableGet_eq_none
      intro e2 he2 heq2
      apply hne
      have hl2 := (htbl e2 he2).1
      rw [heq2] at hl2
      exact (map_toLower_fix (fun c hc => (hl2 c hc).1)).symm
    have hfail := colorParser_letters_fail hsne hlet hget
    exact ⟨hfail, by simp [colorStringParser, hfail]⟩
  · decide

theorem c9_witness :
    colorParser "Red".toList = none ∧ colorStringParser "RED".toList = none :=
  ⟨(c9_named_colors_case_sensitive.1 "Red".toList (by decide) (by decide)).1,
    (c9_named_colors_case_sensitive.1 "RED".toList (by decide)
      (by decide)).2⟩

/-- C10: all 148 hard-coded named-color table entries carry a valid
6-digit hexadecimal body, so decoding each entry succeeds, the
`expect("Invalid named color entry!")` branch is unreachable, and the
constructed table keeps all 148 entries. -/
theorem c10_color_table_entries_valid :
    cssColorRaw.all (fun e => (Color.hex e.2).isSome) = true ∧
    cssColorRaw.length = 148 ∧
    cssColorTable.length = 148 := by
  refine ⟨by decide, by decide, by decide⟩
